import Mathlib

/-!
Verification of the interrupt-driven multi-channel ADC sampling subsystem of
the ruuvitracker firmware (eLua STM32F4 platform layer, `platform.c`), and of
the single-producer/single-consumer ring buffer declared in
`src/platform/stm32f4/ringbuff.h`.

The platform-layer functions `platform_adc_stop`, `platform_adc_update_sequence`,
`DMA2_Stream0_IRQHandler`, `platform_adc_set_clock` and
`platform_adc_start_sequence` are embedded directly from the C source as pure
state-transition functions over an explicit device/channel state.  Hardware
registers touched through the ST standard-peripheral calls (`ADC_Init`,
`DMA_Init`, `DMA_DeInit`, `NVIC_Init`, ...) are represented by fields of the
state recording exactly what those calls program.  The eLua common layer
(`elua_adc.c`, `buf.c`) and the ring-buffer implementation are not part of the
sources; where their behaviour decides a property they are modelled from the
specification, and each such definition says so in its doc comment.
-/

set_option maxHeartbeats 1000000

namespace RuuviAdc

/-- Number of ADC channels: the `adc_gpio_pins` / `adc_gpio_port` tables in the
platform source have 16 entries (NUM_ADC in the board configuration). -/
def NUM_ADC : Nat := 16

/-- Success status code of the platform layer (eLua `platform.h`, not among the
sources; only the fact that it is the unique success value matters here). -/
def PLATFORM_OK : Nat := 1

/-- Word size of the C `unsigned` / `u32` arithmetic used by the clock setup. -/
def U32_MOD : Nat := 2 ^ 32

/-- Per-channel acquisition state, after `elua_adc_ch_state`.
Modelled from the spec: the struct is declared in eLua's `elua_adc.h`, which is
not among the sources; the spec's `ChannelState` record lists `op_pending`,
free-running mode, `requested_sample_count` (`reqsamples`, 0 = unbounded),
`samples_delivered`, `smoothing_log_depth` (`logsmoothlen`), `smoothing_ready`
(`smooth_ready`), `latest_value` (`value`), `value_fresh` and an optional
ring-buffer sink for queued delivery (`buf`, here the queued samples in
order). -/
structure ChState where
  op_pending : Bool
  freerunning : Bool
  smooth_ready : Bool
  value_fresh : Bool
  logsmoothlen : Nat
  smoothidx : Nat
  smoothsum : Nat
  reqsamples : Nat
  samples_delivered : Nat
  value : Nat
  buf : List Nat
deriving Repr, DecidableEq

/-- Device and hardware state of the single sampling unit (`elua_adc_dev_state`
plus the hardware registers the platform source programs).  `chan` and
`ch_active` model the per-channel table and the `ch_active` mask; `scanList`
models the ordered scan list `d->ch_state[0 .. d->seq_len-1]` (as channel ids),
`sample_buf` the DMA scratch buffer contents and `sampleBufAddr` its address.
The `adcInit*` / `dmaInit*` fields model the global `adc_init_struct` /
`dma_init_struct` variables; the remaining fields model what the ST peripheral
library calls program into the hardware: the ADC external-trigger edge
(`extTrigRising`, true = rising edge selected in CR2), the NVIC enable of the
DMA completion interrupt, the ADC/DMA enables, the transfer-complete interrupt
enable and its pending flag, the software-start bit, the applied ADC scan
length and DMA transfer configuration, and the trigger timer's period and
prescaler registers. -/
structure AdcState where
  chan : Nat → ChState
  ch_active : Nat → Bool
  running : Bool
  clocked : Bool
  buf_enabled : Bool
  scanList : List Nat
  sample_buf : List Nat
  sampleBufAddr : Nat
  timer_id : Nat
  extTrigRising : Bool
  nvicAdcEnabled : Bool
  adcEnabled : Bool
  adcDmaEnabled : Bool
  adcDmaReqAfterLast : Bool
  dmaStreamEnabled : Bool
  dmaItEnabled : Bool
  dmaPending : Bool
  swStart : Bool
  adcInitNbrConv : Nat
  adcInitExtTrigRising : Bool
  adcInitExtSel : Nat
  dmaInitBufSize : Nat
  dmaInitMemAddr : Nat
  dmaInitCircular : Bool
  dmaInitPeriph2Mem : Bool
  dmaBufSize : Nat
  dmaMemAddr : Nat
  dmaCircular : Bool
  dmaPeriph2Mem : Bool
  adcNbrConv : Nat
  timPeriodReg : Nat
  timPrescalerReg : Nat
  timTrgoUpdate : Bool

/-- Replace the state of one channel in the channel table. -/
def setChan (st : AdcState) (id : Nat) (c : ChState) : AdcState :=
  { st with chan := fun i => if i = id then c else st.chan i }

/-- Modelled from the spec: `INACTIVATE_CHANNEL( d, id )` is a macro of eLua's
`elua_adc.h` (not among the sources) that clears channel `id`'s bit in the
`ch_active` mask; the spec calls this marking the channel inactive. -/
def INACTIVATE_CHANNEL (st : AdcState) (id : Nat) : AdcState :=
  { st with ch_active := fun i => if i = id then false else st.ch_active i }

/-- The test `d->ch_active == 0` of the C source: no channel bit is set in the
active mask. -/
def noActiveChannels (st : AdcState) : Bool :=
  (List.range NUM_ADC).all fun i => ! st.ch_active i

/-- Embedding of `ADC_ExternalTrigConvCmd` (defined in the platform source):
it rewrites the EXTEN bits of ADC CR2, selecting the rising-edge external
trigger or disabling external triggering.  The macro `ADC_TRIG_CFG(adn, n)`
calls it with `Rising` for ENABLE and `None` for DISABLE. -/
def ADC_ExternalTrigConvCmd (rising : Bool) (st : AdcState) : AdcState :=
  { st with extTrigRising := rising }

/-- `ADC_SoftwareStartConvCmd(adc, ENABLE)`: sets the SWSTART bit in CR2. -/
def ADC_SoftwareStartConvCmd (st : AdcState) : AdcState :=
  { st with swStart := true }

/-- `ADC_Init(adc, &adc_init_struct)` of the ST peripheral library (an external
collaborator): applies the init struct to the ADC, in particular the number of
scan conversions and the external-trigger edge selection. -/
def ADC_Init (st : AdcState) : AdcState :=
  { st with adcNbrConv := st.adcInitNbrConv,
            extTrigRising := st.adcInitExtTrigRising }

/-- `ADC_DeInit()` of the ST peripheral library: resets the ADC registers, so
the trigger edge returns to `None`, the unit is disabled and the scan length
returns to its reset value of one conversion. -/
def ADC_DeInit (st : AdcState) : AdcState :=
  { st with adcEnabled := false, extTrigRising := false, adcNbrConv := 1 }

/-- `DMA_DeInit(stream)` of the ST peripheral library: disables the stream,
resets its configuration registers and clears its interrupt flags (including
the transfer-complete pending flag). -/
def DMA_DeInit (st : AdcState) : AdcState :=
  { st with dmaStreamEnabled := false, dmaItEnabled := false, dmaPending := false,
            dmaBufSize := 0, dmaMemAddr := 0,
            dmaCircular := false, dmaPeriph2Mem := false }

/-- `DMA_Init(stream, &dma_init_struct)` of the ST peripheral library: applies
the init struct to the stream (buffer size, memory target, circular mode,
peripheral-to-memory direction). -/
def DMA_Init (st : AdcState) : AdcState :=
  { st with dmaBufSize := st.dmaInitBufSize, dmaMemAddr := st.dmaInitMemAddr,
            dmaCircular := st.dmaInitCircular, dmaPeriph2Mem := st.dmaInitPeriph2Mem }

/-- Embedding of `platform_adc_stop` from the platform source: clear the
channel's `op_pending`, clear its bit in the active mask, and if no active
channel remains, disable the external trigger (`ADC_TRIG_CFG DISABLE`),
disable the DMA completion interrupt in the NVIC, and clear `running`. -/
def platform_adc_stop (id : Nat) (st : AdcState) : AdcState :=
  let st1 := setChan st id { st.chan id with op_pending := false }
  let st2 := INACTIVATE_CHANNEL st1 id
  if noActiveChannels st2 then
    { (ADC_ExternalTrigConvCmd false st2) with nvicAdcEnabled := false, running := false }
  else st2

/-- The final step of the sequence rebuild: `if ( d->clocked == 1 &&
d->running == 1 ) ADC_TRIG_CFG( adc[ d->seq_id ], ENABLE );`. -/
def trigIfClockedRunning (st : AdcState) : AdcState :=
  if st.clocked = true ∧ st.running = true then ADC_ExternalTrigConvCmd true st else st

/-- The opening of `platform_adc_update_sequence`: `ADC_TRIG_CFG(DISABLE);
ADC_DMACmd(DISABLE); ADC_Cmd(DISABLE); ADC_DeInit();`. -/
def updSeqShutdown (st : AdcState) : AdcState :=
  ADC_DeInit
    { (ADC_ExternalTrigConvCmd false st) with adcDmaEnabled := false, adcEnabled := false }

/-- `adc_init_struct.ADC_NbrOfConversion = d->seq_len; ADC_Init(...);
ADC_Cmd(..., ENABLE);` — the pin/rank configuration loop
(`ADC_RegularChannelConfig` with rank `seq_ctr+1`) is captured by the order of
`scanList` itself. -/
def updSeqAdcSetup (st : AdcState) : AdcState :=
  { (ADC_Init { st with adcInitNbrConv := st.scanList.length }) with adcEnabled := true }

/-- `DMA_Cmd(DISABLE); DMA_DeInit; dma_init_struct.DMA_BufferSize = d->seq_len;
dma_init_struct.DMA_Memory0BaseAddr = (u32)d->sample_buf; DMA_Init;
DMA_Cmd(ENABLE);`. -/
def updSeqDmaSetup (st : AdcState) : AdcState :=
  { (DMA_Init
      { (DMA_DeInit { st with dmaStreamEnabled := false }) with
          dmaInitBufSize := st.scanList.length,
          dmaInitMemAddr := st.sampleBufAddr }) with dmaStreamEnabled := true }

/-- `ADC_DMARequestAfterLastTransferCmd(ADC1, ENABLE); ADC_DMACmd(..., ENABLE);
DMA_ITConfig(..., DMA_IT_TC, ENABLE);`. -/
def updSeqFinish (st : AdcState) : AdcState :=
  { st with adcDmaReqAfterLast := true, adcDmaEnabled := true, dmaItEnabled := true }

/-- The body of the sequence rebuild before the final conditional trigger
re-enable: shutdown, ADC reconfiguration, DMA reconfiguration, re-enable of
the DMA request/interrupt path, in the order of the C source. -/
def updSeqCore (st : AdcState) : AdcState :=
  updSeqFinish (updSeqDmaSetup (updSeqAdcSetup (updSeqShutdown st)))

/-- Embedding of `platform_adc_update_sequence` from the platform source (the
function always returns `PLATFORM_OK`, so only the state is modelled): disable
trigger, ADC-DMA and ADC, de-initialize the ADC, configure the scan positions,
program the conversion count with the scan-list length, re-enable the ADC,
rebuild the DMA stream with buffer size = scan-list length and memory target =
the scratch buffer, re-enable DMA and the completion interrupt, and re-enable
the trigger only when the device is clocked and running. -/
def platform_adc_update_sequence (st : AdcState) : AdcState :=
  trigIfClockedRunning (updSeqCore st)

/-- The list of active channel ids in ascending order. -/
def activeIds (st : AdcState) : List Nat :=
  (List.range NUM_ADC).filter fun i => st.ch_active i

/-- Modelled from the spec: `adc_update_dev_sequence` lives in eLua's
`elua_adc.c`, which is not among the sources.  Per spec section 4.3, on every
topology change the scan list is rebuilt as the active channels in ascending
channel-id order (position = rank in the active set) and the hardware is then
reprogrammed through the platform rebuild routine. -/
def adc_update_dev_sequence (st : AdcState) : AdcState :=
  platform_adc_update_sequence { st with scanList := activeIds st }

/-- Modelled from the spec: `adc_smooth_data` lives in eLua's `elua_adc.c`,
which is not among the sources.  Per spec section 4.5, it feeds the raw sample
into a smoothing accumulator sized `2 ^ smoothing_log_depth` and marks
`smoothing_ready` once the accumulator has seen enough samples. -/
def adc_smooth_data (st : AdcState) (id : Nat) (sample : Nat) : AdcState :=
  let s := st.chan id
  let s := { s with smoothidx := s.smoothidx + 1, smoothsum := s.smoothsum + sample }
  let s := if 2 ^ s.logsmoothlen ≤ s.smoothidx then { s with smooth_ready := true } else s
  setChan st id s

/-- The delivered-count bookkeeping and the stop check at the end of the
completion handler's per-channel loop body.  The counter is modelled from the
spec: the source counts delivered samples through `adc_samples_available`
(eLua's `elua_adc.c` / `buf.c`, not among the sources), and per spec section
4.5 the handler increments `samples_delivered` for each scanned channel and
then stops the channel once `samples_delivered >= requested_sample_count`
unless it is free-running — the source's test
`adc_samples_available(s->id) >= s->reqsamples && s->freerunning == 0`
followed by `platform_adc_stop(s->id)`. -/
def handlerDeliverCount (st : AdcState) (cid : Nat) : AdcState :=
  let s2 := st.chan cid
  let st3 := setChan st cid { s2 with samples_delivered := s2.samples_delivered + 1 }
  if (st3.chan cid).reqsamples ≤ (st3.chan cid).samples_delivered
      ∧ (st3.chan cid).freerunning = false then
    platform_adc_stop cid st3
  else st3

/-- One iteration of the completion handler's scan-list loop, for the channel
`cid` sitting at scan position `idx`; embedded from the loop body of
`DMA2_Stream0_IRQHandler`.  The just-captured sample is the scratch-buffer
slot at the scan position (the channel's `value_ptr` points into the scratch
buffer, so marking `value_fresh` publishes it as the latest value).  The
smoothing warm-up branch and the buffered branch are exactly the source's
conditions: `s->logsmoothlen > 0 && s->smooth_ready == 0`, else (when built
with `BUF_ENABLE_ADC`) `s->reqsamples > 1`, in which case the sample is queued
into the channel's ring-buffer sink and `value_fresh` is cleared; the loop
body ends with the delivered-count bookkeeping and the stop check. -/
def handlerChanStep (st : AdcState) (idx cid : Nat) : AdcState :=
  let sample := st.sample_buf.getD idx 0
  let s0 := st.chan cid
  let st1 := setChan st cid { s0 with value_fresh := true, value := sample }
  let st2 :=
    if s0.logsmoothlen > 0 ∧ s0.smooth_ready = false then
      adc_smooth_data st1 cid sample
    else if st1.buf_enabled = true ∧ s0.reqsamples > 1 then
      setChan st1 cid { st1.chan cid with buf := (st1.chan cid).buf ++ [sample],
                                          value_fresh := false }
    else st1
  handlerDeliverCount st2 cid

/-- The completion handler's `while( d->seq_ctr < d->seq_len )` loop over the
scan list, starting at scan position `idx`. -/
def handlerLoopGo (st : AdcState) (idx : Nat) : List Nat → AdcState
  | [] => st
  | cid :: rest => handlerLoopGo (handlerChanStep st idx cid) (idx + 1) rest

/-- The completion handler's last two steps, after the scan-list loop: if the
device is still running, rebuild the sequence (`adc_update_dev_sequence( 0 )`),
and in software-triggered mode (`clocked == 0 && running == 1`) kick off the
next conversion with a software start. -/
def handlerTail (st : AdcState) : AdcState :=
  let st3 := if st.running = true then adc_update_dev_sequence st else st
  if st3.clocked = false ∧ st3.running = true then ADC_SoftwareStartConvCmd st3 else st3

/-- Embedding of `DMA2_Stream0_IRQHandler` from the platform source: clear the
transfer-complete pending flag, run the scan-list loop over the scan positions,
then the tail (conditional rebuild and software re-trigger). -/
def DMA2_Stream0_IRQHandler (st : AdcState) : AdcState :=
  let st1 := { st with dmaPending := false }
  handlerTail (handlerLoopGo st1 0 st1.scanList)

/-- A hardware completion event: the DMA engine deposits the scan's sample
vector into the scratch buffer and raises the transfer-complete interrupt; the
handler runs only while its NVIC channel (`nvic_init_structure_adc`) is
enabled. -/
def fireCompletion (ev : List Nat) (st : AdcState) : AdcState :=
  if st.nvicAdcEnabled = true then
    DMA2_Stream0_IRQHandler { st with sample_buf := ev }
  else st

/-- Embedding of `platform_adc_set_clock` from the platform source.  The base
clock `TIM_GET_BASE_CLK( id )` is the constant `HCLK`, passed here as
`baseClk`; C `unsigned` arithmetic is mirrored with explicit wrap-around where
it matters: the timer period register receives `period - 1` as a 32-bit value
(underflowing to `2^32 - 1` when `period = 0`) and the prescaler register is
16 bits wide, which `TIM_GetPrescaler` reads back for the achieved-frequency
computation.  (In Lean, `x / 0 = 0`; the C source's division by a zero
`period` would be undefined, so claims about the returned frequency assume
`period > 0`.) -/
def platform_adc_set_clock (baseClk frequency : Nat) (st : AdcState) : Nat × AdcState :=
  let st := ADC_ExternalTrigConvCmd false st
  if frequency > 0 then
    let st := { st with clocked := true,
                        adcInitExtSel := st.timer_id,
                        adcInitExtTrigRising := true }
    let period := baseClk / frequency
    let prescaler := period / 0x10000 + 1
    let period := period / prescaler
    let st := { st with timPeriodReg := (period + (U32_MOD - 1)) % U32_MOD,
                        timPrescalerReg := (prescaler - 1) % 0x10000 }
    let actual := (baseClk / ((prescaler - 1) % 0x10000 + 1)) / period
    let st := { st with timTrgoUpdate := true }
    (actual, ADC_Init st)
  else
    let st := { st with clocked := false, adcInitExtTrigRising := false }
    (frequency, ADC_Init st)

/-- Embedding of `platform_adc_start_sequence` from the platform source: only
when the device is not already running, rebuild the sequence, set `running`,
clear the completion interrupt's pending flag, enable the completion interrupt
in the NVIC, and arm the first conversion (hardware trigger when clocked,
software start otherwise); in every case return `PLATFORM_OK`. -/
def platform_adc_start_sequence (st : AdcState) : Nat × AdcState :=
  if st.running = true then (PLATFORM_OK, st)
  else
    let st := adc_update_dev_sequence st
    let st := { st with running := true }
    let st := { st with dmaPending := false }
    let st := { st with nvicAdcEnabled := true }
    let st := if st.clocked = true then ADC_ExternalTrigConvCmd true st
              else ADC_SoftwareStartConvCmd st
    (PLATFORM_OK, st)

/-- The single-producer/single-consumer ring buffer of
`src/platform/stm32f4/ringbuff.h`: backing storage, `top` (next write
position), `bottom` (next read position) and the storage size. -/
structure Rbuff where
  data : List Nat
  top : Nat
  bottom : Nat
  size : Nat
deriving Repr, DecidableEq

/-- Modelled from the spec: the body of `rbuff_is_empty` is not among the
sources; per spec section 3 the buffer is empty exactly when the write and
read indices coincide. -/
def rbuff_is_empty (p : Rbuff) : Bool :=
  p.top == p.bottom

/-- Modelled from the spec: the body of `rbuff_is_full` is not among the
sources; per spec section 3 the buffer is full exactly when advancing the
write index would meet the read index, leaving `size - 1` usable slots. -/
def rbuff_is_full (p : Rbuff) : Bool :=
  (p.top + 1) % p.size == p.bottom

/-- Modelled from the spec: the body of `rbuff_push` is not among the sources
(`ringbuff.h` only declares it); per spec section 4.1 `push` returns false and
leaves the buffer untouched when it is full — it never overwrites unread
data — and otherwise stores the byte at the write position and advances the
write index modulo the size. -/
def rbuff_push (p : Rbuff) (c : Nat) : Bool × Rbuff :=
  if rbuff_is_full p then (false, p)
  else (true, { p with data := p.data.set p.top c, top := (p.top + 1) % p.size })

/-- Modelled from the spec: the body of `rbuff_pop` is not among the sources
(`ringbuff.h` only declares it); per spec section 4.1 `pop` returns `none`
when the buffer is empty and otherwise returns the byte at the read position
and advances the read index modulo the size. -/
def rbuff_pop (p : Rbuff) : Option Nat × Rbuff :=
  if rbuff_is_empty p then (none, p)
  else (some (p.data.getD p.bottom 0), { p with bottom := (p.bottom + 1) % p.size })

/-! ### Basic frame lemmas for the state-transformer components -/

theorem setChan_chan_self (st : AdcState) (id : Nat) (c : ChState) :
    (setChan st id c).chan id = c := by
  simp [setChan]

theorem setChan_chan_other (st : AdcState) (id c0 : Nat) (c : ChState) (h : c0 ≠ id) :
    (setChan st id c).chan c0 = st.chan c0 := by
  simp [setChan, h]

theorem noActiveChannels_false (st : AdcState) (c : Nat) (hc : c < NUM_ADC)
    (h : st.ch_active c = true) : noActiveChannels st = false := by
  apply Bool.eq_false_iff.mpr
  intro hall
  have hmem := List.all_eq_true.mp hall c (List.mem_range.mpr hc)
  simp [h] at hmem

theorem mem_activeIds (st : AdcState) (c : Nat) :
    c ∈ activeIds st ↔ c < NUM_ADC ∧ st.ch_active c = true := by
  simp [activeIds, List.mem_filter, List.mem_range]

theorem activeIds_nodup (st : AdcState) : (activeIds st).Nodup :=
  (List.nodup_range _).filter _

theorem smooth_chan_other (st : AdcState) (id c0 : Nat) (x : Nat) (h : c0 ≠ id) :
    (adc_smooth_data st id x).chan c0 = st.chan c0 := by
  simp only [adc_smooth_data]
  exact setChan_chan_other _ _ _ _ h

theorem smooth_chan_self (st : AdcState) (id : Nat) (x : Nat) :
    ((adc_smooth_data st id x).chan id).samples_delivered = (st.chan id).samples_delivered ∧
    ((adc_smooth_data st id x).chan id).reqsamples = (st.chan id).reqsamples ∧
    ((adc_smooth_data st id x).chan id).freerunning = (st.chan id).freerunning ∧
    ((adc_smooth_data st id x).chan id).logsmoothlen = (st.chan id).logsmoothlen ∧
    ((adc_smooth_data st id x).chan id).value_fresh = (st.chan id).value_fresh ∧
    ((adc_smooth_data st id x).chan id).value = (st.chan id).value ∧
    ((adc_smooth_data st id x).chan id).buf = (st.chan id).buf ∧
    ((adc_smooth_data st id x).chan id).op_pending = (st.chan id).op_pending := by
  simp only [adc_smooth_data, setChan_chan_self]
  split <;> simp

theorem stop_chan_self (st : AdcState) (id : Nat) :
    (platform_adc_stop id st).chan id = { st.chan id with op_pending := false } := by
  simp only [platform_adc_stop, INACTIVATE_CHANNEL, ADC_ExternalTrigConvCmd]
  split <;> simp [setChan]

theorem stop_chan_other (st : AdcState) (id c0 : Nat) (h : c0 ≠ id) :
    (platform_adc_stop id st).chan c0 = st.chan c0 := by
  simp only [platform_adc_stop, INACTIVATE_CHANNEL, ADC_ExternalTrigConvCmd]
  split <;> simp [setChan, h]

theorem stop_active_self (st : AdcState) (id : Nat) :
    (platform_adc_stop id st).ch_active id = false := by
  simp only [platform_adc_stop, INACTIVATE_CHANNEL, ADC_ExternalTrigConvCmd]
  split <;> simp

theorem stop_active_other (st : AdcState) (id c0 : Nat) (h : c0 ≠ id) :
    (platform_adc_stop id st).ch_active c0 = st.ch_active c0 := by
  simp only [platform_adc_stop, INACTIVATE_CHANNEL, ADC_ExternalTrigConvCmd, setChan]
  split <;> simp [h]

theorem stop_frame (st : AdcState) (id : Nat) :
    (platform_adc_stop id st).scanList = st.scanList ∧
    (platform_adc_stop id st).clocked = st.clocked ∧
    (platform_adc_stop id st).buf_enabled = st.buf_enabled ∧
    (platform_adc_stop id st).sample_buf = st.sample_buf := by
  simp only [platform_adc_stop, INACTIVATE_CHANNEL, ADC_ExternalTrigConvCmd, setChan]
  split <;> simp

theorem stop_nvic_eq_running (st : AdcState) (id : Nat)
    (h : st.nvicAdcEnabled = st.running) :
    (platform_adc_stop id st).nvicAdcEnabled = (platform_adc_stop id st).running := by
  simp only [platform_adc_stop, INACTIVATE_CHANNEL, ADC_ExternalTrigConvCmd, setChan]
  split <;> simp [h]

theorem noActive_contra (st : AdcState) (c : Nat) (hc : c < NUM_ADC)
    (h : st.ch_active c = true) (hall : noActiveChannels st = true) : False := by
  have hfalse := noActiveChannels_false st c hc h
  simp [hfalse] at hall

theorem stop_running_of_other (st : AdcState) (id c0 : Nat) (hc : c0 < NUM_ADC)
    (hact : st.ch_active c0 = true) (h : c0 ≠ id) :
    (platform_adc_stop id st).running = st.running ∧
    (platform_adc_stop id st).nvicAdcEnabled = st.nvicAdcEnabled ∧
    (platform_adc_stop id st).extTrigRising = st.extTrigRising := by
  simp only [platform_adc_stop, INACTIVATE_CHANNEL, ADC_ExternalTrigConvCmd, setChan]
  split
  case isTrue hAll => exact absurd hAll (fun hAll =>
    noActive_contra _ c0 hc (by simp [h, hact]) hAll)
  case isFalse hAll => simp

theorem smooth_delivered (st : AdcState) (id x : Nat) :
    ((adc_smooth_data st id x).chan id).samples_delivered = (st.chan id).samples_delivered :=
  (smooth_chan_self st id x).1

theorem smooth_req (st : AdcState) (id x : Nat) :
    ((adc_smooth_data st id x).chan id).reqsamples = (st.chan id).reqsamples :=
  (smooth_chan_self st id x).2.1

theorem smooth_freerun (st : AdcState) (id x : Nat) :
    ((adc_smooth_data st id x).chan id).freerunning = (st.chan id).freerunning :=
  (smooth_chan_self st id x).2.2.1

theorem smooth_logsm (st : AdcState) (id x : Nat) :
    ((adc_smooth_data st id x).chan id).logsmoothlen = (st.chan id).logsmoothlen :=
  (smooth_chan_self st id x).2.2.2.1

/-! ### The two execution equations of the delivered-count and stop check -/

theorem hdc_stop_eq (st : AdcState) (cid : Nat)
    (h : (st.chan cid).reqsamples ≤ (st.chan cid).samples_delivered + 1
      ∧ (st.chan cid).freerunning = false) :
    handlerDeliverCount st cid = platform_adc_stop cid
      (setChan st cid
        { st.chan cid with samples_delivered := (st.chan cid).samples_delivered + 1 }) := by
  simp only [handlerDeliverCount, setChan_chan_self]
  rw [if_pos]
  exact h

theorem hdc_nostop_eq (st : AdcState) (cid : Nat)
    (h : ¬ ((st.chan cid).reqsamples ≤ (st.chan cid).samples_delivered + 1
      ∧ (st.chan cid).freerunning = false)) :
    handlerDeliverCount st cid = setChan st cid
      { st.chan cid with samples_delivered := (st.chan cid).samples_delivered + 1 } := by
  simp only [handlerDeliverCount, setChan_chan_self]
  rw [if_neg]
  exact h

theorem hdc_chan_other (st : AdcState) (cid c0 : Nat) (h : c0 ≠ cid) :
    (handlerDeliverCount st cid).chan c0 = st.chan c0 := by
  by_cases hcond : (st.chan cid).reqsamples ≤ (st.chan cid).samples_delivered + 1
      ∧ (st.chan cid).freerunning = false
  · rw [hdc_stop_eq st cid hcond, stop_chan_other _ _ _ h, setChan_chan_other _ _ _ _ h]
  · rw [hdc_nostop_eq st cid hcond, setChan_chan_other _ _ _ _ h]

theorem hdc_active_other (st : AdcState) (cid c0 : Nat) (h : c0 ≠ cid) :
    (handlerDeliverCount st cid).ch_active c0 = st.ch_active c0 := by
  by_cases hcond : (st.chan cid).reqsamples ≤ (st.chan cid).samples_delivered + 1
      ∧ (st.chan cid).freerunning = false
  · rw [hdc_stop_eq st cid hcond, stop_active_other _ _ _ h]; rfl
  · rw [hdc_nostop_eq st cid hcond]; rfl

theorem hdc_frame (st : AdcState) (cid : Nat) :
    (handlerDeliverCount st cid).scanList = st.scanList ∧
    (handlerDeliverCount st cid).clocked = st.clocked ∧
    (handlerDeliverCount st cid).buf_enabled = st.buf_enabled ∧
    (handlerDeliverCount st cid).sample_buf = st.sample_buf := by
  by_cases hcond : (st.chan cid).reqsamples ≤ (st.chan cid).samples_delivered + 1
      ∧ (st.chan cid).freerunning = false
  · rw [hdc_stop_eq st cid hcond]
    exact stop_frame _ _
  · rw [hdc_nostop_eq st cid hcond]
    exact ⟨rfl, rfl, rfl, rfl⟩

theorem hdc_nvic_eq_running (st : AdcState) (cid : Nat)
    (h : st.nvicAdcEnabled = st.running) :
    (handlerDeliverCount st cid).nvicAdcEnabled = (handlerDeliverCount st cid).running := by
  by_cases hcond : (st.chan cid).reqsamples ≤ (st.chan cid).samples_delivered + 1
      ∧ (st.chan cid).freerunning = false
  · rw [hdc_stop_eq st cid hcond]
    exact stop_nvic_eq_running _ _ h
  · rw [hdc_nostop_eq st cid hcond]
    exact h

theorem hdc_running_of_other (st : AdcState) (cid c0 : Nat) (hc : c0 < NUM_ADC)
    (hact : st.ch_active c0 = true) (h : c0 ≠ cid) :
    (handlerDeliverCount st cid).running = st.running ∧
    (handlerDeliverCount st cid).nvicAdcEnabled = st.nvicAdcEnabled := by
  by_cases hcond : (st.chan cid).reqsamples ≤ (st.chan cid).samples_delivered + 1
      ∧ (st.chan cid).freerunning = false
  · rw [hdc_stop_eq st cid hcond]
    have := stop_running_of_other
      (setChan st cid
        { st.chan cid with samples_delivered := (st.chan cid).samples_delivered + 1 })
      cid c0 hc hact h
    exact ⟨this.1, this.2.1⟩
  · rw [hdc_nostop_eq st cid hcond]
    exact ⟨rfl, rfl⟩

theorem setChan_setChan (st : AdcState) (id : Nat) (c1 c2 : ChState) :
    setChan (setChan st id c1) id c2 = setChan st id c2 := by
  simp only [setChan]
  congr 1
  funext i
  by_cases h : i = id <;> simp [h]

/-! ### Execution equations for the three branches of the per-channel loop body -/

theorem step_eq_smooth (st : AdcState) (idx cid : Nat)
    (hsm : (st.chan cid).logsmoothlen > 0 ∧ (st.chan cid).smooth_ready = false) :
    handlerChanStep st idx cid =
      handlerDeliverCount
        (adc_smooth_data
          (setChan st cid { st.chan cid with value_fresh := true,
                                             value := st.sample_buf.getD idx 0 })
          cid (st.sample_buf.getD idx 0)) cid := by
  simp only [handlerChanStep]
  rw [if_pos hsm]

theorem step_eq_buffered (st : AdcState) (idx cid : Nat)
    (hsm : ¬ ((st.chan cid).logsmoothlen > 0 ∧ (st.chan cid).smooth_ready = false))
    (hbuf : st.buf_enabled = true ∧ (st.chan cid).reqsamples > 1) :
    handlerChanStep st idx cid =
      handlerDeliverCount
        (setChan st cid { st.chan cid with value_fresh := false,
                                           value := st.sample_buf.getD idx 0,
                                           buf := (st.chan cid).buf
                                             ++ [st.sample_buf.getD idx 0] }) cid := by
  simp only [handlerChanStep]
  rw [if_neg hsm, if_pos (by exact hbuf), setChan_chan_self, setChan_setChan]

theorem step_eq_plain (st : AdcState) (idx cid : Nat)
    (hsm : ¬ ((st.chan cid).logsmoothlen > 0 ∧ (st.chan cid).smooth_ready = false))
    (hbuf : ¬ (st.buf_enabled = true ∧ (st.chan cid).reqsamples > 1)) :
    handlerChanStep st idx cid =
      handlerDeliverCount
        (setChan st cid { st.chan cid with value_fresh := true,
                                           value := st.sample_buf.getD idx 0 }) cid := by
  simp only [handlerChanStep]
  rw [if_neg hsm, if_neg (by exact hbuf)]

theorem smooth_ch_active (st : AdcState) (id x : Nat) :
    (adc_smooth_data st id x).ch_active = st.ch_active := rfl

theorem smooth_frame (st : AdcState) (id x : Nat) :
    (adc_smooth_data st id x).running = st.running ∧
    (adc_smooth_data st id x).nvicAdcEnabled = st.nvicAdcEnabled ∧
    (adc_smooth_data st id x).scanList = st.scanList ∧
    (adc_smooth_data st id x).clocked = st.clocked ∧
    (adc_smooth_data st id x).buf_enabled = st.buf_enabled ∧
    (adc_smooth_data st id x).sample_buf = st.sample_buf :=
  ⟨rfl, rfl, rfl, rfl, rfl, rfl⟩

theorem hdc_chan_self_fields (st : AdcState) (cid : Nat) :
    ((handlerDeliverCount st cid).chan cid).samples_delivered
        = (st.chan cid).samples_delivered + 1 ∧
    ((handlerDeliverCount st cid).chan cid).reqsamples = (st.chan cid).reqsamples ∧
    ((handlerDeliverCount st cid).chan cid).freerunning = (st.chan cid).freerunning ∧
    ((handlerDeliverCount st cid).chan cid).logsmoothlen = (st.chan cid).logsmoothlen ∧
    ((handlerDeliverCount st cid).chan cid).value_fresh = (st.chan cid).value_fresh ∧
    ((handlerDeliverCount st cid).chan cid).value = (st.chan cid).value ∧
    ((handlerDeliverCount st cid).chan cid).buf = (st.chan cid).buf := by
  by_cases hcond : (st.chan cid).reqsamples ≤ (st.chan cid).samples_delivered + 1
      ∧ (st.chan cid).freerunning = false
  · rw [hdc_stop_eq st cid hcond, stop_chan_self, setChan_chan_self]
    simp
  · rw [hdc_nostop_eq st cid hcond, setChan_chan_self]
    simp

theorem hdc_stop_effects (st : AdcState) (cid : Nat)
    (hge : (st.chan cid).reqsamples ≤ (st.chan cid).samples_delivered + 1)
    (hfr : (st.chan cid).freerunning = false) :
    (handlerDeliverCount st cid).ch_active cid = false ∧
    ((handlerDeliverCount st cid).chan cid).op_pending = false := by
  rw [hdc_stop_eq st cid ⟨hge, hfr⟩]
  exact ⟨stop_active_self _ _, by rw [stop_chan_self]⟩

theorem hdc_nostop_effects (st : AdcState) (cid : Nat)
    (h : ¬ ((st.chan cid).reqsamples ≤ (st.chan cid).samples_delivered + 1
      ∧ (st.chan cid).freerunning = false)) :
    (handlerDeliverCount st cid).ch_active = st.ch_active ∧
    (handlerDeliverCount st cid).running = st.running ∧
    (handlerDeliverCount st cid).nvicAdcEnabled = st.nvicAdcEnabled ∧
    (handlerDeliverCount st cid).extTrigRising = st.extTrigRising := by
  rw [hdc_nostop_eq st cid h]
  exact ⟨rfl, rfl, rfl, rfl⟩

/-! ### Frame and effect lemmas for one iteration of the handler loop -/

theorem step_chan_other (st : AdcState) (idx cid c0 : Nat) (h : c0 ≠ cid) :
    (handlerChanStep st idx cid).chan c0 = st.chan c0 := by
  by_cases hsm : (st.chan cid).logsmoothlen > 0 ∧ (st.chan cid).smooth_ready = false
  · rw [step_eq_smooth st idx cid hsm, hdc_chan_other _ _ _ h,
      smooth_chan_other _ _ _ _ h, setChan_chan_other _ _ _ _ h]
  · by_cases hbuf : st.buf_enabled = true ∧ (st.chan cid).reqsamples > 1
    · rw [step_eq_buffered st idx cid hsm hbuf, hdc_chan_other _ _ _ h,
        setChan_chan_other _ _ _ _ h]
    · rw [step_eq_plain st idx cid hsm hbuf, hdc_chan_other _ _ _ h,
        setChan_chan_other _ _ _ _ h]

theorem step_active_other (st : AdcState) (idx cid c0 : Nat) (h : c0 ≠ cid) :
    (handlerChanStep st idx cid).ch_active c0 = st.ch_active c0 := by
  by_cases hsm : (st.chan cid).logsmoothlen > 0 ∧ (st.chan cid).smooth_ready = false
  · rw [step_eq_smooth st idx cid hsm, hdc_active_other _ _ _ h]; rfl
  · by_cases hbuf : st.buf_enabled = true ∧ (st.chan cid).reqsamples > 1
    · rw [step_eq_buffered st idx cid hsm hbuf, hdc_active_other _ _ _ h]; rfl
    · rw [step_eq_plain st idx cid hsm hbuf, hdc_active_other _ _ _ h]; rfl

theorem step_frame (st : AdcState) (idx cid : Nat) :
    (handlerChanStep st idx cid).scanList = st.scanList ∧
    (handlerChanStep st idx cid).clocked = st.clocked ∧
    (handlerChanStep st idx cid).buf_enabled = st.buf_enabled ∧
    (handlerChanStep st idx cid).sample_buf = st.sample_buf := by
  by_cases hsm : (st.chan cid).logsmoothlen > 0 ∧ (st.chan cid).smooth_ready = false
  · rw [step_eq_smooth st idx cid hsm]
    exact hdc_frame _ _
  · by_cases hbuf : st.buf_enabled = true ∧ (st.chan cid).reqsamples > 1
    · rw [step_eq_buffered st idx cid hsm hbuf]
      exact hdc_frame _ _
    · rw [step_eq_plain st idx cid hsm hbuf]
      exact hdc_frame _ _

theorem step_nvic_eq_running (st : AdcState) (idx cid : Nat)
    (h : st.nvicAdcEnabled = st.running) :
    (handlerChanStep st idx cid).nvicAdcEnabled = (handlerChanStep st idx cid).running := by
  by_cases hsm : (st.chan cid).logsmoothlen > 0 ∧ (st.chan cid).smooth_ready = false
  · rw [step_eq_smooth st idx cid hsm]
    exact hdc_nvic_eq_running _ _ h
  · by_cases hbuf : st.buf_enabled = true ∧ (st.chan cid).reqsamples > 1
    · rw [step_eq_buffered st idx cid hsm hbuf]
      exact hdc_nvic_eq_running _ _ h
    · rw [step_eq_plain st idx cid hsm hbuf]
      exact hdc_nvic_eq_running _ _ h

theorem step_running_of_other (st : AdcState) (idx cid c0 : Nat) (hc : c0 < NUM_ADC)
    (hact : st.ch_active c0 = true) (h : c0 ≠ cid) :
    (handlerChanStep st idx cid).running = st.running ∧
    (handlerChanStep st idx cid).nvicAdcEnabled = st.nvicAdcEnabled := by
  by_cases hsm : (st.chan cid).logsmoothlen > 0 ∧ (st.chan cid).smooth_ready = false
  · rw [step_eq_smooth st idx cid hsm]
    exact hdc_running_of_other _ _ _ hc hact h
  · by_cases hbuf : st.buf_enabled = true ∧ (st.chan cid).reqsamples > 1
    · rw [step_eq_buffered st idx cid hsm hbuf]
      exact hdc_running_of_other _ _ _ hc hact h
    · rw [step_eq_plain st idx cid hsm hbuf]
      exact hdc_running_of_other _ _ _ hc hact h

theorem step_chan_self_fields (st : AdcState) (idx cid : Nat) :
    ((handlerChanStep st idx cid).chan cid).samples_delivered
        = (st.chan cid).samples_delivered + 1 ∧
    ((handlerChanStep st idx cid).chan cid).reqsamples = (st.chan cid).reqsamples ∧
    ((handlerChanStep st idx cid).chan cid).freerunning = (st.chan cid).freerunning ∧
    ((handlerChanStep st idx cid).chan cid).logsmoothlen = (st.chan cid).logsmoothlen := by
  by_cases hsm : (st.chan cid).logsmoothlen > 0 ∧ (st.chan cid).smooth_ready = false
  · rw [step_eq_smooth st idx cid hsm]
    have hf := hdc_chan_self_fields
      (adc_smooth_data
        (setChan st cid { st.chan cid with value_fresh := true,
                                           value := st.sample_buf.getD idx 0 })
        cid (st.sample_buf.getD idx 0)) cid
    rw [hf.1, hf.2.1, hf.2.2.1, hf.2.2.2.1, smooth_delivered, smooth_req,
      smooth_freerun, smooth_logsm, setChan_chan_self]
    simp
  · by_cases hbuf : st.buf_enabled = true ∧ (st.chan cid).reqsamples > 1
    · rw [step_eq_buffered st idx cid hsm hbuf]
      have hf := hdc_chan_self_fields
        (setChan st cid { st.chan cid with value_fresh := false,
                                           value := st.sample_buf.getD idx 0,
                                           buf := (st.chan cid).buf
                                             ++ [st.sample_buf.getD idx 0] }) cid
      rw [hf.1, hf.2.1, hf.2.2.1, hf.2.2.2.1, setChan_chan_self]
      simp
    · rw [step_eq_plain st idx cid hsm hbuf]
      have hf := hdc_chan_self_fields
        (setChan st cid { st.chan cid with value_fresh := true,
                                           value := st.sample_buf.getD idx 0 }) cid
      rw [hf.1, hf.2.1, hf.2.2.1, hf.2.2.2.1, setChan_chan_self]
      simp

theorem step_stop_effects (st : AdcState) (idx cid : Nat)
    (hge : (st.chan cid).reqsamples ≤ (st.chan cid).samples_delivered + 1)
    (hfr : (st.chan cid).freerunning = false) :
    (handlerChanStep st idx cid).ch_active cid = false ∧
    ((handlerChanStep st idx cid).chan cid).op_pending = false := by
  by_cases hsm : (st.chan cid).logsmoothlen > 0 ∧ (st.chan cid).smooth_ready = false
  · rw [step_eq_smooth st idx cid hsm]
    apply hdc_stop_effects
    · rw [smooth_req, smooth_delivered, setChan_chan_self]
      simpa using hge
    · rw [smooth_freerun, setChan_chan_self]
      simpa using hfr
  · by_cases hbuf : st.buf_enabled = true ∧ (st.chan cid).reqsamples > 1
    · rw [step_eq_buffered st idx cid hsm hbuf]
      apply hdc_stop_effects
      · rw [setChan_chan_self]
        simpa using hge
      · rw [setChan_chan_self]
        simpa using hfr
    · rw [step_eq_plain st idx cid hsm hbuf]
      apply hdc_stop_effects
      · rw [setChan_chan_self]
        simpa using hge
      · rw [setChan_chan_self]
        simpa using hfr

theorem step_nostop_effects (st : AdcState) (idx cid : Nat)
    (h : ¬ ((st.chan cid).reqsamples ≤ (st.chan cid).samples_delivered + 1
      ∧ (st.chan cid).freerunning = false)) :
    (handlerChanStep st idx cid).ch_active = st.ch_active ∧
    (handlerChanStep st idx cid).running = st.running ∧
    (handlerChanStep st idx cid).nvicAdcEnabled = st.nvicAdcEnabled ∧
    (handlerChanStep st idx cid).extTrigRising = st.extTrigRising := by
  by_cases hsm : (st.chan cid).logsmoothlen > 0 ∧ (st.chan cid).smooth_ready = false
  · rw [step_eq_smooth st idx cid hsm]
    apply hdc_nostop_effects
    rw [smooth_req, smooth_delivered, smooth_freerun, setChan_chan_self]
    simpa using h
  · by_cases hbuf : st.buf_enabled = true ∧ (st.chan cid).reqsamples > 1
    · rw [step_eq_buffered st idx cid hsm hbuf]
      apply hdc_nostop_effects
      rw [setChan_chan_self]
      simpa using h
    · rw [step_eq_plain st idx cid hsm hbuf]
      apply hdc_nostop_effects
      rw [setChan_chan_self]
      simpa using h

theorem step_buffered_content (st : AdcState) (idx cid : Nat)
    (hsm : ¬ ((st.chan cid).logsmoothlen > 0 ∧ (st.chan cid).smooth_ready = false))
    (hbuf : st.buf_enabled = true ∧ (st.chan cid).reqsamples > 1) :
    ((handlerChanStep st idx cid).chan cid).buf
        = (st.chan cid).buf ++ [st.sample_buf.getD idx 0] ∧
    ((handlerChanStep st idx cid).chan cid).value_fresh = false ∧
    ((handlerChanStep st idx cid).chan cid).value = st.sample_buf.getD idx 0 := by
  rw [step_eq_buffered st idx cid hsm hbuf]
  have hf := hdc_chan_self_fields
    (setChan st cid { st.chan cid with value_fresh := false,
                                       value := st.sample_buf.getD idx 0,
                                       buf := (st.chan cid).buf
                                         ++ [st.sample_buf.getD idx 0] }) cid
  rw [hf.2.2.2.2.2.2, hf.2.2.2.2.1, hf.2.2.2.2.2.1, setChan_chan_self]
  simp

theorem step_plain_content (st : AdcState) (idx cid : Nat)
    (hsm : ¬ ((st.chan cid).logsmoothlen > 0 ∧ (st.chan cid).smooth_ready = false))
    (hbuf : ¬ (st.buf_enabled = true ∧ (st.chan cid).reqsamples > 1)) :
    ((handlerChanStep st idx cid).chan cid).buf = (st.chan cid).buf ∧
    ((handlerChanStep st idx cid).chan cid).value_fresh = true ∧
    ((handlerChanStep st idx cid).chan cid).value = st.sample_buf.getD idx 0 := by
  rw [step_eq_plain st idx cid hsm hbuf]
  have hf := hdc_chan_self_fields
    (setChan st cid { st.chan cid with value_fresh := true,
                                       value := st.sample_buf.getD idx 0 }) cid
  rw [hf.2.2.2.2.2.2, hf.2.2.2.2.1, hf.2.2.2.2.2.1, setChan_chan_self]
  simp

/-! ### Frame lemmas for the sequence rebuild -/

theorem trig_frame (s : AdcState) :
    (trigIfClockedRunning s).chan = s.chan ∧
    (trigIfClockedRunning s).ch_active = s.ch_active ∧
    (trigIfClockedRunning s).running = s.running ∧
    (trigIfClockedRunning s).nvicAdcEnabled = s.nvicAdcEnabled ∧
    (trigIfClockedRunning s).clocked = s.clocked ∧
    (trigIfClockedRunning s).scanList = s.scanList ∧
    (trigIfClockedRunning s).sample_buf = s.sample_buf ∧
    (trigIfClockedRunning s).buf_enabled = s.buf_enabled := by
  unfold trigIfClockedRunning
  split <;> exact ⟨rfl, rfl, rfl, rfl, rfl, rfl, rfl, rfl⟩

/-- The twelve state fields untouched by every stage of the sequence rebuild. -/
def SeqFrame (f : AdcState → AdcState) : Prop :=
  ∀ s : AdcState,
    (f s).chan = s.chan ∧
    (f s).ch_active = s.ch_active ∧
    (f s).running = s.running ∧
    (f s).nvicAdcEnabled = s.nvicAdcEnabled ∧
    (f s).clocked = s.clocked ∧
    (f s).scanList = s.scanList ∧
    (f s).sample_buf = s.sample_buf ∧
    (f s).buf_enabled = s.buf_enabled ∧
    (f s).sampleBufAddr = s.sampleBufAddr ∧
    (f s).adcInitExtTrigRising = s.adcInitExtTrigRising ∧
    (f s).dmaInitCircular = s.dmaInitCircular ∧
    (f s).dmaInitPeriph2Mem = s.dmaInitPeriph2Mem

theorem seqFrame_shutdown : SeqFrame updSeqShutdown :=
  fun _ => ⟨rfl, rfl, rfl, rfl, rfl, rfl, rfl, rfl, rfl, rfl, rfl, rfl⟩

theorem seqFrame_adcSetup : SeqFrame updSeqAdcSetup :=
  fun _ => ⟨rfl, rfl, rfl, rfl, rfl, rfl, rfl, rfl, rfl, rfl, rfl, rfl⟩

theorem seqFrame_dmaSetup : SeqFrame updSeqDmaSetup :=
  fun _ => ⟨rfl, rfl, rfl, rfl, rfl, rfl, rfl, rfl, rfl, rfl, rfl, rfl⟩

theorem seqFrame_finish : SeqFrame updSeqFinish :=
  fun _ => ⟨rfl, rfl, rfl, rfl, rfl, rfl, rfl, rfl, rfl, rfl, rfl, rfl⟩

theorem seqFrame_core : SeqFrame updSeqCore := by
  intro s
  obtain ⟨d1, d2, d3, d4, d5, d6, d7, d8, d9, d10, d11, d12⟩ :=
    seqFrame_finish (updSeqDmaSetup (updSeqAdcSetup (updSeqShutdown s)))
  obtain ⟨c1, c2, c3, c4, c5, c6, c7, c8, c9, c10, c11, c12⟩ :=
    seqFrame_dmaSetup (updSeqAdcSetup (updSeqShutdown s))
  obtain ⟨b1, b2, b3, b4, b5, b6, b7, b8, b9, b10, b11, b12⟩ :=
    seqFrame_adcSetup (updSeqShutdown s)
  obtain ⟨a1, a2, a3, a4, a5, a6, a7, a8, a9, a10, a11, a12⟩ := seqFrame_shutdown s
  exact ⟨d1.trans (c1.trans (b1.trans a1)), d2.trans (c2.trans (b2.trans a2)),
    d3.trans (c3.trans (b3.trans a3)), d4.trans (c4.trans (b4.trans a4)),
    d5.trans (c5.trans (b5.trans a5)), d6.trans (c6.trans (b6.trans a6)),
    d7.trans (c7.trans (b7.trans a7)), d8.trans (c8.trans (b8.trans a8)),
    d9.trans (c9.trans (b9.trans a9)), d10.trans (c10.trans (b10.trans a10)),
    d11.trans (c11.trans (b11.trans a11)), d12.trans (c12.trans (b12.trans a12))⟩

theorem updSeqCore_frame (st : AdcState) :
    (updSeqCore st).chan = st.chan ∧
    (updSeqCore st).ch_active = st.ch_active ∧
    (updSeqCore st).running = st.running ∧
    (updSeqCore st).nvicAdcEnabled = st.nvicAdcEnabled ∧
    (updSeqCore st).clocked = st.clocked ∧
    (updSeqCore st).scanList = st.scanList ∧
    (updSeqCore st).sample_buf = st.sample_buf ∧
    (updSeqCore st).buf_enabled = st.buf_enabled ∧
    (updSeqCore st).sampleBufAddr = st.sampleBufAddr ∧
    (updSeqCore st).adcInitExtTrigRising = st.adcInitExtTrigRising := by
  obtain ⟨h1, h2, h3, h4, h5, h6, h7, h8, h9, h10, _, _⟩ := seqFrame_core st
  exact ⟨h1, h2, h3, h4, h5, h6, h7, h8, h9, h10⟩

theorem upd_seq_frame (st : AdcState) :
    (platform_adc_update_sequence st).chan = st.chan ∧
    (platform_adc_update_sequence st).ch_active = st.ch_active ∧
    (platform_adc_update_sequence st).running = st.running ∧
    (platform_adc_update_sequence st).nvicAdcEnabled = st.nvicAdcEnabled ∧
    (platform_adc_update_sequence st).clocked = st.clocked ∧
    (platform_adc_update_sequence st).scanList = st.scanList ∧
    (platform_adc_update_sequence st).sample_buf = st.sample_buf ∧
    (platform_adc_update_sequence st).buf_enabled = st.buf_enabled :=
  ⟨(trig_frame (updSeqCore st)).1.trans (updSeqCore_frame st).1,
    (trig_frame (updSeqCore st)).2.1.trans (updSeqCore_frame st).2.1,
    (trig_frame (updSeqCore st)).2.2.1.trans (updSeqCore_frame st).2.2.1,
    (trig_frame (updSeqCore st)).2.2.2.1.trans (updSeqCore_frame st).2.2.2.1,
    (trig_frame (updSeqCore st)).2.2.2.2.1.trans (updSeqCore_frame st).2.2.2.2.1,
    (trig_frame (updSeqCore st)).2.2.2.2.2.1.trans (updSeqCore_frame st).2.2.2.2.2.1,
    (trig_frame (updSeqCore st)).2.2.2.2.2.2.1.trans (updSeqCore_frame st).2.2.2.2.2.2.1,
    (trig_frame (updSeqCore st)).2.2.2.2.2.2.2.trans
      (updSeqCore_frame st).2.2.2.2.2.2.2.1⟩

theorem adcSetup_vals (s : AdcState) :
    (updSeqAdcSetup s).adcNbrConv = s.scanList.length ∧
    (updSeqAdcSetup s).extTrigRising = s.adcInitExtTrigRising ∧
    (updSeqAdcSetup s).adcEnabled = true :=
  ⟨rfl, rfl, rfl⟩

theorem dmaSetup_vals (s : AdcState) :
    (updSeqDmaSetup s).dmaBufSize = s.scanList.length ∧
    (updSeqDmaSetup s).dmaMemAddr = s.sampleBufAddr ∧
    (updSeqDmaSetup s).dmaCircular = s.dmaInitCircular ∧
    (updSeqDmaSetup s).dmaPeriph2Mem = s.dmaInitPeriph2Mem ∧
    (updSeqDmaSetup s).dmaPending = false ∧
    (updSeqDmaSetup s).dmaStreamEnabled = true ∧
    (updSeqDmaSetup s).adcNbrConv = s.adcNbrConv ∧
    (updSeqDmaSetup s).extTrigRising = s.extTrigRising ∧
    (updSeqDmaSetup s).adcEnabled = s.adcEnabled :=
  ⟨rfl, rfl, rfl, rfl, rfl, rfl, rfl, rfl, rfl⟩

theorem finish_vals (s : AdcState) :
    (updSeqFinish s).dmaBufSize = s.dmaBufSize ∧
    (updSeqFinish s).dmaMemAddr = s.dmaMemAddr ∧
    (updSeqFinish s).dmaCircular = s.dmaCircular ∧
    (updSeqFinish s).dmaPeriph2Mem = s.dmaPeriph2Mem ∧
    (updSeqFinish s).dmaPending = s.dmaPending ∧
    (updSeqFinish s).dmaStreamEnabled = s.dmaStreamEnabled ∧
    (updSeqFinish s).adcNbrConv = s.adcNbrConv ∧
    (updSeqFinish s).extTrigRising = s.extTrigRising ∧
    (updSeqFinish s).adcEnabled = s.adcEnabled :=
  ⟨rfl, rfl, rfl, rfl, rfl, rfl, rfl, rfl, rfl⟩

theorem trig_vals (s : AdcState) :
    (trigIfClockedRunning s).dmaBufSize = s.dmaBufSize ∧
    (trigIfClockedRunning s).dmaMemAddr = s.dmaMemAddr ∧
    (trigIfClockedRunning s).dmaCircular = s.dmaCircular ∧
    (trigIfClockedRunning s).dmaPeriph2Mem = s.dmaPeriph2Mem ∧
    (trigIfClockedRunning s).dmaPending = s.dmaPending ∧
    (trigIfClockedRunning s).dmaStreamEnabled = s.dmaStreamEnabled ∧
    (trigIfClockedRunning s).adcNbrConv = s.adcNbrConv ∧
    (trigIfClockedRunning s).adcEnabled = s.adcEnabled ∧
    (trigIfClockedRunning s).extTrigRising
      = (s.extTrigRising || (s.clocked && s.running)) := by
  unfold trigIfClockedRunning
  by_cases h : s.clocked = true ∧ s.running = true
  · rw [if_pos h]
    refine ⟨rfl, rfl, rfl, rfl, rfl, rfl, rfl, rfl, ?_⟩
    show true = (s.extTrigRising || (s.clocked && s.running))
    rw [h.1, h.2]
    simp
  · rw [if_neg h]
    refine ⟨rfl, rfl, rfl, rfl, rfl, rfl, rfl, rfl, ?_⟩
    have hcr : (s.clocked && s.running) = false := by
      cases hc : s.clocked <;> cases hr : s.running <;> simp_all
    rw [hcr]
    simp

/-- The observable effect of one full sequence rebuild on the programmed DMA
and ADC configuration. -/
theorem upd_seq_vals (st : AdcState) :
    (platform_adc_update_sequence st).dmaBufSize = st.scanList.length ∧
    (platform_adc_update_sequence st).dmaMemAddr = st.sampleBufAddr ∧
    (platform_adc_update_sequence st).dmaCircular = st.dmaInitCircular ∧
    (platform_adc_update_sequence st).dmaPeriph2Mem = st.dmaInitPeriph2Mem ∧
    (platform_adc_update_sequence st).dmaPending = false ∧
    (platform_adc_update_sequence st).dmaStreamEnabled = true ∧
    (platform_adc_update_sequence st).adcNbrConv = st.scanList.length ∧
    (platform_adc_update_sequence st).adcEnabled = true ∧
    (platform_adc_update_sequence st).extTrigRising
      = (st.adcInitExtTrigRising || (st.clocked && st.running)) := by
  obtain ⟨t1, t2, t3, t4, t5, t6, t7, t8, t9⟩ := trig_vals (updSeqCore st)
  obtain ⟨d1, d2, d3, d4, d5, d6, d7, d8, d9⟩ :=
    finish_vals (updSeqDmaSetup (updSeqAdcSetup (updSeqShutdown st)))
  obtain ⟨c1, c2, c3, c4, c5, c6, c7, c8, c9⟩ :=
    dmaSetup_vals (updSeqAdcSetup (updSeqShutdown st))
  obtain ⟨b1, b2, b3⟩ := adcSetup_vals (updSeqShutdown st)
  obtain ⟨sb1, sb2, sb3, sb4, sb5, sb6, sb7, sb8, sb9, sb10, sb11, sb12⟩ :=
    seqFrame_shutdown st
  obtain ⟨sa1, sa2, sa3, sa4, sa5, sa6, sa7, sa8, sa9, sa10, sa11, sa12⟩ :=
    seqFrame_adcSetup (updSeqShutdown st)
  obtain ⟨f1, f2, f3, f4, f5, f6, f7, f8, f9, f10⟩ := updSeqCore_frame st
  refine ⟨?_, ?_, ?_, ?_, ?_, ?_, ?_, ?_, ?_⟩
  · exact t1.trans (d1.trans (c1.trans (by rw [sa6, sb6])))
  · exact t2.trans (d2.trans (c2.trans (by rw [sa9, sb9])))
  · exact t3.trans (d3.trans (c3.trans (by rw [sa11, sb11])))
  · exact t4.trans (d4.trans (c4.trans (by rw [sa12, sb12])))
  · exact t5.trans (d5.trans c5)
  · exact t6.trans (d6.trans c6)
  · exact t7.trans (d7.trans (c7.trans (b1.trans (by rw [sb6]))))
  · exact t8.trans (d9.trans (c9.trans b3))
  · have hcoreExt : (updSeqCore st).extTrigRising = st.adcInitExtTrigRising :=
      d8.trans (c8.trans (b2.trans (by rw [sb10])))
    have h9 : (trigIfClockedRunning (updSeqCore st)).extTrigRising
        = (st.adcInitExtTrigRising || (st.clocked && st.running)) := by
      rw [t9, hcoreExt, f5, f3]
    exact h9

theorem activeIds_congr (st1 st2 : AdcState) (h : st1.ch_active = st2.ch_active) :
    activeIds st1 = activeIds st2 := by
  simp [activeIds, h]

theorem dev_seq_frame (st : AdcState) :
    (adc_update_dev_sequence st).chan = st.chan ∧
    (adc_update_dev_sequence st).ch_active = st.ch_active ∧
    (adc_update_dev_sequence st).running = st.running ∧
    (adc_update_dev_sequence st).nvicAdcEnabled = st.nvicAdcEnabled ∧
    (adc_update_dev_sequence st).clocked = st.clocked ∧
    (adc_update_dev_sequence st).scanList = activeIds st ∧
    (adc_update_dev_sequence st).buf_enabled = st.buf_enabled := by
  have h := upd_seq_frame { st with scanList := activeIds st }
  exact ⟨h.1, h.2.1, h.2.2.1, h.2.2.2.1, h.2.2.2.2.1, h.2.2.2.2.2.1,
    h.2.2.2.2.2.2.2⟩

/-! ### Frame lemmas for the handler loop and tail -/

theorem handlerLoopGo_append (l1 l2 : List Nat) (st : AdcState) (idx : Nat) :
    handlerLoopGo st idx (l1 ++ l2)
      = handlerLoopGo (handlerLoopGo st idx l1) (idx + l1.length) l2 := by
  induction l1 generalizing st idx with
  | nil => simp [handlerLoopGo]
  | cons a t ih =>
      simp only [List.cons_append, handlerLoopGo, List.length_cons, List.append_eq]
      rw [ih]
      congr 1
      omega

theorem loop_frame (l : List Nat) (st : AdcState) (idx : Nat) :
    (handlerLoopGo st idx l).scanList = st.scanList ∧
    (handlerLoopGo st idx l).clocked = st.clocked ∧
    (handlerLoopGo st idx l).buf_enabled = st.buf_enabled ∧
    (handlerLoopGo st idx l).sample_buf = st.sample_buf := by
  induction l generalizing st idx with
  | nil => exact ⟨rfl, rfl, rfl, rfl⟩
  | cons a t ih =>
      have hstep := step_frame st idx a
      have hrec := ih (handlerChanStep st idx a) (idx + 1)
      exact ⟨hrec.1.trans hstep.1, hrec.2.1.trans hstep.2.1,
        hrec.2.2.1.trans hstep.2.2.1, hrec.2.2.2.trans hstep.2.2.2⟩

theorem loop_not_mem (l : List Nat) (st : AdcState) (idx c0 : Nat) (h : c0 ∉ l) :
    (handlerLoopGo st idx l).chan c0 = st.chan c0 ∧
    (handlerLoopGo st idx l).ch_active c0 = st.ch_active c0 := by
  induction l generalizing st idx with
  | nil => exact ⟨rfl, rfl⟩
  | cons a t ih =>
      have hne : c0 ≠ a := fun he => h (he ▸ List.mem_cons_self a t)
      have hnt : c0 ∉ t := fun ht => h (List.mem_cons_of_mem a ht)
      have hrec := ih (handlerChanStep st idx a) (idx + 1) hnt
      exact ⟨hrec.1.trans (step_chan_other st idx a c0 hne),
        hrec.2.trans (step_active_other st idx a c0 hne)⟩

theorem loop_nvic_eq_running (l : List Nat) (st : AdcState) (idx : Nat)
    (h : st.nvicAdcEnabled = st.running) :
    (handlerLoopGo st idx l).nvicAdcEnabled = (handlerLoopGo st idx l).running := by
  induction l generalizing st idx with
  | nil => exact h
  | cons a t ih =>
      exact ih (handlerChanStep st idx a) (idx + 1) (step_nvic_eq_running st idx a h)

theorem loop_running_of_active (l : List Nat) (st : AdcState) (idx c0 : Nat)
    (hc : c0 < NUM_ADC) (hnm : c0 ∉ l) (hact : st.ch_active c0 = true) :
    (handlerLoopGo st idx l).running = st.running ∧
    (handlerLoopGo st idx l).nvicAdcEnabled = st.nvicAdcEnabled := by
  induction l generalizing st idx with
  | nil => exact ⟨rfl, rfl⟩
  | cons a t ih =>
      have hne : c0 ≠ a := fun he => hnm (he ▸ List.mem_cons_self a t)
      have hnt : c0 ∉ t := fun ht => hnm (List.mem_cons_of_mem a ht)
      have hact' : (handlerChanStep st idx a).ch_active c0 = true :=
        (step_active_other st idx a c0 hne).trans hact
      have hstep := step_running_of_other st idx a c0 hc hact hne
      have hrec := ih (handlerChanStep st idx a) (idx + 1) hnt hact'
      exact ⟨hrec.1.trans hstep.1, hrec.2.trans hstep.2⟩

theorem sw_if_frame (P : Prop) [Decidable P] (s : AdcState) :
    (if P then ADC_SoftwareStartConvCmd s else s).chan = s.chan ∧
    (if P then ADC_SoftwareStartConvCmd s else s).ch_active = s.ch_active ∧
    (if P then ADC_SoftwareStartConvCmd s else s).running = s.running ∧
    (if P then ADC_SoftwareStartConvCmd s else s).nvicAdcEnabled = s.nvicAdcEnabled ∧
    (if P then ADC_SoftwareStartConvCmd s else s).clocked = s.clocked ∧
    (if P then ADC_SoftwareStartConvCmd s else s).scanList = s.scanList := by
  split <;> exact ⟨rfl, rfl, rfl, rfl, rfl, rfl⟩

theorem tail_facts (st : AdcState) (c : Nat) :
    (handlerTail st).chan c = st.chan c ∧
    (handlerTail st).ch_active c = st.ch_active c ∧
    (handlerTail st).running = st.running ∧
    (handlerTail st).nvicAdcEnabled = st.nvicAdcEnabled ∧
    (handlerTail st).clocked = st.clocked ∧
    ((handlerTail st).running = true → (handlerTail st).scanList
      = activeIds (handlerTail st)) := by
  simp only [handlerTail]
  by_cases hr : st.running = true
  · rw [if_pos hr]
    have hd := dev_seq_frame st
    have hs := sw_if_frame ((adc_update_dev_sequence st).clocked = false
      ∧ (adc_update_dev_sequence st).running = true) (adc_update_dev_sequence st)
    refine ⟨?_, ?_, hs.2.2.1.trans hd.2.2.1, hs.2.2.2.1.trans hd.2.2.2.1,
      hs.2.2.2.2.1.trans hd.2.2.2.2.1, ?_⟩
    · rw [hs.1, hd.1]
    · rw [hs.2.1, hd.2.1]
    · intro _
      rw [hs.2.2.2.2.2, hd.2.2.2.2.2.1]
      have hca : (if ((adc_update_dev_sequence st).clocked = false
          ∧ (adc_update_dev_sequence st).running = true) then
            ADC_SoftwareStartConvCmd (adc_update_dev_sequence st)
          else adc_update_dev_sequence st).ch_active = st.ch_active :=
        hs.2.1.trans hd.2.1
      rw [activeIds_congr _ st hca]
  · rw [if_neg hr]
    have hs := sw_if_frame (st.clocked = false ∧ st.running = true) st
    refine ⟨by rw [hs.1], by rw [hs.2.1], hs.2.2.1, hs.2.2.2.1, hs.2.2.2.2.1, ?_⟩
    intro htrue
    rw [hs.2.2.1] at htrue
    exact absurd htrue hr

theorem tail_swStart (st : AdcState) (hcl : st.clocked = false)
    (hr : (handlerTail st).running = true) : (handlerTail st).swStart = true := by
  simp only [handlerTail] at hr ⊢
  by_cases hrun : st.running = true
  · rw [if_pos hrun] at hr ⊢
    have h3c : (adc_update_dev_sequence st).clocked = false :=
      (dev_seq_frame st).2.2.2.2.1.trans hcl
    have h3r : (adc_update_dev_sequence st).running = true :=
      (dev_seq_frame st).2.2.1.trans hrun
    rw [if_pos ⟨h3c, h3r⟩]
    rfl
  · rw [if_neg hrun, if_neg (fun hand => hrun hand.2)] at hr
    exact absurd hr hrun

/-! ### The invariant carried across completion events for claim C1 -/

/-- Invariant for a channel `c` started with request count `k`, smoothing
depth 0 and not free-running, after `n` completion events: the channel's
static parameters are unchanged, its delivered count is `min n k`, it is
active exactly while `n < k` (and its `op_pending` is cleared once stopped),
the completion interrupt is enabled exactly while the device runs, an active
channel keeps the device running, and while running the scan list is the
ascending active list. -/
def C1Inv (c k n : Nat) (st : AdcState) : Prop :=
  (st.chan c).reqsamples = k ∧
  (st.chan c).logsmoothlen = 0 ∧
  (st.chan c).freerunning = false ∧
  (st.chan c).samples_delivered = min n k ∧
  (st.ch_active c = true ↔ n < k) ∧
  (k ≤ n → (st.chan c).op_pending = false) ∧
  st.nvicAdcEnabled = st.running ∧
  (st.ch_active c = true → st.running = true) ∧
  (st.running = true → st.scanList = activeIds st)

theorem fireCompletion_C1Inv (c k n : Nat) (hc : c < NUM_ADC) (hk : 0 < k)
    (ev : List Nat) (st : AdcState) (hInv : C1Inv c k n st) :
    C1Inv c k (n + 1) (fireCompletion ev st) := by
  obtain ⟨hreq, hlog, hfr, hdel, hiff, hop, hnr, har, hsc⟩ := hInv
  by_cases hnv : st.nvicAdcEnabled = true
  case neg =>
    have heq : fireCompletion ev st = st := by
      simp [fireCompletion, hnv]
    rw [heq]
    have hrun : st.running = false := by
      cases hb : st.running
      · rfl
      · exact absurd (hnr.trans hb) hnv
    have hact : st.ch_active c = false := by
      cases hb : st.ch_active c
      · rfl
      · have h1 := har hb
        rw [hrun] at h1
        simp at h1
    have hkn : k ≤ n := by
      by_contra hlt
      push_neg at hlt
      have h2 := hiff.mpr hlt
      rw [hact] at h2
      simp at h2
    refine ⟨hreq, hlog, hfr, ?_, ?_, ?_, hnr, har, hsc⟩
    · rw [hdel]
      omega
    · rw [hact]
      simp
      omega
    · intro _
      exact hop hkn
  case pos =>
    have hrun : st.running = true := by rw [← hnr]; exact hnv
    have hscan := hsc hrun
    have hfc : fireCompletion ev st
        = handlerTail (handlerLoopGo
            { { st with sample_buf := ev } with dmaPending := false } 0 st.scanList) := by
      unfold fireCompletion
      rw [if_pos hnv]
      rfl
    rw [hfc]
    by_cases hact : st.ch_active c = true
    case neg =>
      -- the channel is already inactive; the loop never touches it
      have hactF : st.ch_active c = false := by
        cases hb : st.ch_active c
        · rfl
        · exact absurd hb hact
      have hkn : k ≤ n := by
        by_contra hlt
        push_neg at hlt
        exact hact (hiff.mpr hlt)
      have hnm : c ∉ st.scanList := by
        rw [hscan]
        intro hm
        have hm2 := (mem_activeIds st c).mp hm
        rw [hactF] at hm2
        simp at hm2
      have hL := loop_not_mem st.scanList
        { { st with sample_buf := ev } with dmaPending := false } 0 c hnm
      have hL2 := loop_nvic_eq_running st.scanList
        { { st with sample_buf := ev } with dmaPending := false } 0 hnr
      have htf := tail_facts (handlerLoopGo
        { { st with sample_buf := ev } with dmaPending := false } 0 st.scanList) c
      refine ⟨?_, ?_, ?_, ?_, ?_, ?_, ?_, ?_, htf.2.2.2.2.2⟩
      · rw [htf.1, hL.1]; exact hreq
      · rw [htf.1, hL.1]; exact hlog
      · rw [htf.1, hL.1]; exact hfr
      · rw [htf.1, hL.1]
        show (st.chan c).samples_delivered = min (n + 1) k
        rw [hdel]
        omega
      · rw [htf.2.1, hL.2]
        show st.ch_active c = true ↔ n + 1 < k
        rw [hactF]
        simp
        omega
      · intro _
        rw [htf.1, hL.1]
        exact hop hkn
      · rw [htf.2.2.2.1, htf.2.2.1]
        exact hL2
      · intro hca
        rw [htf.2.1, hL.2] at hca
        exact absurd (har hca) (by rw [hrun]; exact fun h => hact (by cases hb : st.ch_active c <;> simp_all))
      -- final clause supplied positionally above
    case pos =>
      have hnk : n < k := hiff.mp hact
      have hdeln : (st.chan c).samples_delivered = n := by
        rw [hdel]
        omega
      have hmem : c ∈ st.scanList := by
        rw [hscan]
        exact (mem_activeIds st c).mpr ⟨hc, hact⟩
      obtain ⟨l1, l2, hsplit⟩ := List.append_of_mem hmem
      have hnd : (l1 ++ c :: l2).Nodup := by
        rw [← hsplit, hscan]
        exact activeIds_nodup st
      have hc1 : c ∉ l1 := fun hm =>
        (List.disjoint_of_nodup_append hnd) hm (List.mem_cons_self c l2)
      have hc2 : c ∉ l2 := ((List.nodup_cons.mp (List.nodup_append.mp hnd).2.1)).1
      have hdecomp : handlerLoopGo
          { { st with sample_buf := ev } with dmaPending := false } 0 st.scanList
          = handlerLoopGo
              (handlerChanStep
                (handlerLoopGo
                  { { st with sample_buf := ev } with dmaPending := false } 0 l1)
                l1.length c)
              (l1.length + 1) l2 := by
        rw [hsplit, handlerLoopGo_append]
        simp [handlerLoopGo]
      rw [hdecomp]
      have hA := loop_not_mem l1
        { { st with sample_buf := ev } with dmaPending := false } 0 c hc1
      have hAchan : (handlerLoopGo
          { { st with sample_buf := ev } with dmaPending := false } 0 l1).chan c
          = st.chan c := hA.1
      have hAact : (handlerLoopGo
          { { st with sample_buf := ev } with dmaPending := false } 0 l1).ch_active c
          = true := hA.2.trans hact
      have hArn := loop_running_of_active l1
        { { st with sample_buf := ev } with dmaPending := false } 0 c hc hc1 hact
      have hArun : (handlerLoopGo
          { { st with sample_buf := ev } with dmaPending := false } 0 l1).running
          = true := hArn.1.trans hrun
      have hAnvic : (handlerLoopGo
          { { st with sample_buf := ev } with dmaPending := false } 0 l1).nvicAdcEnabled
          = true := hArn.2.trans hnv
      set stA := handlerLoopGo
        { { st with sample_buf := ev } with dmaPending := false } 0 l1 with hstA
      have hAnr : stA.nvicAdcEnabled = stA.running := hAnvic.trans hArun.symm
      set stB := handlerChanStep stA l1.length c with hstB
      have hBfields := step_chan_self_fields stA l1.length c
      have hBdel : (stB.chan c).samples_delivered = n + 1 := by
        rw [hstB, hBfields.1, hAchan, hdeln]
      have hBreq : (stB.chan c).reqsamples = k := by
        rw [hstB, hBfields.2.1, hAchan, hreq]
      have hBfr : (stB.chan c).freerunning = false := by
        rw [hstB, hBfields.2.2.1, hAchan, hfr]
      have hBlog : (stB.chan c).logsmoothlen = 0 := by
        rw [hstB, hBfields.2.2.2, hAchan, hlog]
      have hBnr : stB.nvicAdcEnabled = stB.running :=
        step_nvic_eq_running stA l1.length c hAnr
      have hC := loop_not_mem l2 stB (l1.length + 1) c hc2
      have hCnr := loop_nvic_eq_running l2 stB (l1.length + 1) hBnr
      set stC := handlerLoopGo stB (l1.length + 1) l2 with hstC
      have htf := tail_facts stC c
      have hTchan : (handlerTail stC).chan c = stB.chan c := htf.1.trans hC.1
      have hTact : (handlerTail stC).ch_active c = stB.ch_active c := (htf.2.1).trans hC.2
      have hTnr : (handlerTail stC).nvicAdcEnabled = (handlerTail stC).running := by
        rw [htf.2.2.2.1, htf.2.2.1]
        exact hCnr
      by_cases hk1 : k ≤ n + 1
      · -- the k-th delivery: the channel stops itself
        have hstop := step_stop_effects stA l1.length c
          (by rw [hAchan, hreq, hdeln]; exact hk1) (by rw [hAchan]; exact hfr)
        refine ⟨?_, ?_, ?_, ?_, ?_, ?_, hTnr, ?_, htf.2.2.2.2.2⟩
        · rw [hTchan]; exact hBreq
        · rw [hTchan]; exact hBlog
        · rw [hTchan]; exact hBfr
        · rw [hTchan, hBdel]
          omega
        · rw [hTact, hstB]
          rw [hstop.1]
          simp
          omega
        · intro _
          rw [hTchan, hstB]
          exact hstop.2
        · intro hca
          rw [hTact, hstB, hstop.1] at hca
          simp at hca
      · -- not yet at the requested count: the channel stays active
        have hnostop := step_nostop_effects stA l1.length c
          (by rw [hAchan, hreq, hdeln]; exact fun hand => hk1 hand.1)
        have hBact : stB.ch_active c = true := by
          rw [hstB, hnostop.1]
          exact hAact
        have hBrun : stB.running = true := by
          rw [hstB, hnostop.2.1]
          exact hArun
        have hCrn := loop_running_of_active l2 stB (l1.length + 1) c hc hc2 hBact
        have hCrun : stC.running = true := by
          rw [hstC]
          exact hCrn.1.trans hBrun
        have hTrun : (handlerTail stC).running = true := htf.2.2.1.trans hCrun
        refine ⟨?_, ?_, ?_, ?_, ?_, ?_, hTnr, ?_, htf.2.2.2.2.2⟩
        · rw [hTchan]; exact hBreq
        · rw [hTchan]; exact hBlog
        · rw [hTchan]; exact hBfr
        · rw [hTchan, hBdel]
          omega
        · rw [hTact, hBact]
          simp
          omega
        · intro hcon
          exact absurd hcon hk1
        · intro _
          exact hTrun

theorem foldCompletions_C1Inv (c k : Nat) (hc : c < NUM_ADC) (hk : 0 < k)
    (evs : List (List Nat)) (n : Nat) (st : AdcState) (hInv : C1Inv c k n st) :
    C1Inv c k (n + evs.length) (evs.foldl (fun s ev => fireCompletion ev s) st) := by
  induction evs generalizing n st with
  | nil => simpa using hInv
  | cons e t ih =>
      have h1 := fireCompletion_C1Inv c k n hc hk e st hInv
      have h2 := ih (n + 1) (fireCompletion e st) h1
      simp only [List.foldl_cons, List.length_cons]
      have harith : n + (t.length + 1) = (n + 1) + t.length := by omega
      rw [harith]
      exact h2

/-! ### Claim C1 -/

/-- C1: for every channel started with `requested_sample_count = k > 0` and
smoothing depth 0 (not free-running), each completion interrupt increments the
channel's delivered-sample count, and as soon as the count reaches `k` the
handler calls stop on the channel: after `j ≤ k` completions the delivered
count is `j` and the channel is active exactly while `j < k`; after `k` or
more completions the channel is INACTIVE with `samples_delivered = k` (its
`op_pending` cleared by the stop), and no `(k+1)`-th sample is delivered to
it. -/
theorem c1_stop_after_requested_count (st0 : AdcState) (c k : Nat)
    (hc : c < NUM_ADC) (hk : 0 < k)
    (hact : st0.ch_active c = true)
    (hreq : (st0.chan c).reqsamples = k)
    (hdepth : (st0.chan c).logsmoothlen = 0)
    (hfree : (st0.chan c).freerunning = false)
    (hdel : (st0.chan c).samples_delivered = 0)
    (hrun : st0.running = true)
    (hnvic : st0.nvicAdcEnabled = true)
    (hseq : st0.scanList = activeIds st0)
    (evs : List (List Nat)) :
    ((evs.foldl (fun s ev => fireCompletion ev s) st0).chan c).samples_delivered
        = min evs.length k ∧
    ((evs.foldl (fun s ev => fireCompletion ev s) st0).ch_active c = true
        ↔ evs.length < k) ∧
    (k ≤ evs.length →
      (evs.foldl (fun s ev => fireCompletion ev s) st0).ch_active c = false ∧
      ((evs.foldl (fun s ev => fireCompletion ev s) st0).chan c).samples_delivered = k ∧
      ((evs.foldl (fun s ev => fireCompletion ev s) st0).chan c).op_pending = false) := by
  have hInv0 : C1Inv c k 0 st0 := by
    refine ⟨hreq, hdepth, hfree, by simpa using hdel, by simp [hact, hk],
      fun h => absurd h (by omega), hnvic.trans hrun.symm, fun _ => hrun, fun _ => hseq⟩
  have h := foldCompletions_C1Inv c k hc hk evs 0 st0 hInv0
  obtain ⟨_, _, _, hd, hif, hono, _, _, _⟩ := h
  rw [Nat.zero_add] at hd hif hono
  refine ⟨hd, hif, fun hkn => ⟨?_, ?_, hono hkn⟩⟩
  · cases hb : (evs.foldl (fun s ev => fireCompletion ev s) st0).ch_active c
    · rfl
    · have := hif.mp hb
      omega
  · rw [hd]
    omega

/-- A concrete device state for exercising claim C1: channel 2 is the only
active channel, started with request count 2, depth 0, device running. -/
def ch_default : ChState :=
  { op_pending := false, freerunning := false, smooth_ready := false,
    value_fresh := false, logsmoothlen := 0, smoothidx := 0, smoothsum := 0,
    reqsamples := 0, samples_delivered := 0, value := 0, buf := [] }

def c1ExState : AdcState :=
  { chan := fun i => if i = 2 then { ch_default with reqsamples := 2 } else ch_default,
    ch_active := fun i => i == 2,
    running := true, clocked := true, buf_enabled := true,
    scanList := [2], sample_buf := [], sampleBufAddr := 0, timer_id := 1,
    extTrigRising := true, nvicAdcEnabled := true, adcEnabled := true,
    adcDmaEnabled := true, adcDmaReqAfterLast := true, dmaStreamEnabled := true,
    dmaItEnabled := true, dmaPending := false, swStart := false,
    adcInitNbrConv := 1, adcInitExtTrigRising := true, adcInitExtSel := 1,
    dmaInitBufSize := 1, dmaInitMemAddr := 0, dmaInitCircular := true,
    dmaInitPeriph2Mem := true, dmaBufSize := 1, dmaMemAddr := 0, dmaCircular := true,
    dmaPeriph2Mem := true, adcNbrConv := 1, timPeriodReg := 0, timPrescalerReg := 0,
    timTrgoUpdate := true }

/-- Witness for C1 at a concrete input: channel 2, request count 2, three
completion events — the delivered count stays at 2 and the channel is
inactive. -/
theorem c1_stop_after_requested_count_witness :
    ((([[5], [6], [7]] : List (List Nat)).foldl
        (fun s ev => fireCompletion ev s) c1ExState).chan 2).samples_delivered = 2 ∧
    (([[5], [6], [7]] : List (List Nat)).foldl
        (fun s ev => fireCompletion ev s) c1ExState).ch_active 2 = false := by
  have h := c1_stop_after_requested_count c1ExState 2 2 (by decide) (by decide)
    (by decide) (by decide) (by decide) (by decide) (by decide) (by decide)
    (by decide) (by decide) [[5], [6], [7]]
  exact ⟨by simpa using h.1, (h.2.2 (by decide)).1⟩

/-- A fully idle concrete device state, used as the base of the concrete
states below. -/
def stdState : AdcState :=
  { chan := fun _ => ch_default, ch_active := fun _ => false,
    running := false, clocked := false, buf_enabled := false,
    scanList := [], sample_buf := [], sampleBufAddr := 0, timer_id := 1,
    extTrigRising := false, nvicAdcEnabled := false, adcEnabled := false,
    adcDmaEnabled := false, adcDmaReqAfterLast := false, dmaStreamEnabled := false,
    dmaItEnabled := false, dmaPending := false, swStart := false,
    adcInitNbrConv := 1, adcInitExtTrigRising := false, adcInitExtSel := 0,
    dmaInitBufSize := 1, dmaInitMemAddr := 0, dmaInitCircular := false,
    dmaInitPeriph2Mem := false, dmaBufSize := 1, dmaMemAddr := 0,
    dmaCircular := false, dmaPeriph2Mem := false, adcNbrConv := 1,
    timPeriodReg := 0, timPrescalerReg := 0, timTrgoUpdate := false }

/-! ### Claim C2 -/

theorem handler_eq (st : AdcState) :
    DMA2_Stream0_IRQHandler st
      = handlerTail (handlerLoopGo { st with dmaPending := false } 0 st.scanList) :=
  rfl

/-- C2 (amended): in the completion handler, for every channel of the scan
list (at any scan position, with any other channels before and after it; each
channel occupies a single position, as the scan lists the sequencer builds
are duplicate-free) whose smoothing branch is not taken, the just-captured
sample — the scratch-buffer slot at the channel's scan position — is pushed
into the channel's ring-buffer sink with `value_fresh` cleared exactly when
buffering is compiled in and `requested_sample_count > 1`; otherwise —
including the free-running case `requested_sample_count = 0` and the
single-shot case `requested_sample_count = 1` — only
`latest_value`/`value_fresh` are updated and nothing is queued. -/
theorem c2_buffer_push_condition (st : AdcState) (c : Nat) (l1 l2 : List Nat)
    (hscan : st.scanList = l1 ++ c :: l2) (h1 : c ∉ l1) (h2 : c ∉ l2)
    (hsm : ¬ ((st.chan c).logsmoothlen > 0 ∧ (st.chan c).smooth_ready = false)) :
    (st.buf_enabled = true ∧ (st.chan c).reqsamples > 1 →
      ((DMA2_Stream0_IRQHandler st).chan c).buf
          = (st.chan c).buf ++ [st.sample_buf.getD l1.length 0] ∧
      ((DMA2_Stream0_IRQHandler st).chan c).value_fresh = false) ∧
    (¬ (st.buf_enabled = true ∧ (st.chan c).reqsamples > 1) →
      ((DMA2_Stream0_IRQHandler st).chan c).buf = (st.chan c).buf ∧
      ((DMA2_Stream0_IRQHandler st).chan c).value_fresh = true ∧
      ((DMA2_Stream0_IRQHandler st).chan c).value
          = st.sample_buf.getD l1.length 0) := by
  have hrw : DMA2_Stream0_IRQHandler st
      = handlerTail (handlerLoopGo
          (handlerChanStep (handlerLoopGo { st with dmaPending := false } 0 l1)
            l1.length c) (l1.length + 1) l2) := by
    rw [handler_eq st, hscan, handlerLoopGo_append]
    simp [handlerLoopGo]
  rw [hrw]
  have hAchan : (handlerLoopGo { st with dmaPending := false } 0 l1).chan c
      = st.chan c := (loop_not_mem l1 { st with dmaPending := false } 0 c h1).1
  have hAframe := loop_frame l1 { st with dmaPending := false } 0
  have hTchan : (handlerTail (handlerLoopGo
        (handlerChanStep (handlerLoopGo { st with dmaPending := false } 0 l1)
          l1.length c) (l1.length + 1) l2)).chan c
      = ((handlerChanStep (handlerLoopGo { st with dmaPending := false } 0 l1)
          l1.length c)).chan c :=
    (tail_facts _ c).1.trans (loop_not_mem l2 _ (l1.length + 1) c h2).1
  constructor
  · intro hb
    have hcont := step_buffered_content
      (handlerLoopGo { st with dmaPending := false } 0 l1) l1.length c
      (by rw [hAchan]; exact hsm)
      (by rw [hAframe.2.2.1, hAchan]; exact hb)
    rw [hAchan, hAframe.2.2.2] at hcont
    exact ⟨(congrArg ChState.buf hTchan).trans hcont.1,
      (congrArg ChState.value_fresh hTchan).trans hcont.2.1⟩
  · intro hb
    have hcont := step_plain_content
      (handlerLoopGo { st with dmaPending := false } 0 l1) l1.length c
      (by rw [hAchan]; exact hsm)
      (by rw [hAframe.2.2.1, hAchan]; exact hb)
    rw [hAchan, hAframe.2.2.2] at hcont
    exact ⟨(congrArg ChState.buf hTchan).trans hcont.1,
      (congrArg ChState.value_fresh hTchan).trans hcont.2.1,
      (congrArg ChState.value hTchan).trans hcont.2.2⟩

/-- The concrete state refuting C2 as stated: a free-running channel
(`reqsamples = 0`) with a ring-buffer sink available. -/
def c2ExState : AdcState :=
  { stdState with
    chan := fun i => if i = 3 then { ch_default with freerunning := true } else ch_default,
    ch_active := fun i => i == 3,
    running := true, nvicAdcEnabled := true, buf_enabled := true,
    scanList := [3], sample_buf := [42] }

/-- Counterexample to C2 as stated: the channel has a ring-buffer sink
(`buf_enabled = true`) and `requested_sample_count = 0 ≠ 1` (free-running),
yet the handler queues nothing into the ring buffer and leaves `value_fresh`
set — the source's branch condition is `reqsamples > 1`, which excludes the
free-running case. -/
theorem c2_freerunning_not_buffered_counterexample :
    c2ExState.buf_enabled = true ∧
    (c2ExState.chan 3).reqsamples = 0 ∧
    ((DMA2_Stream0_IRQHandler c2ExState).chan 3).buf = [] ∧
    ((DMA2_Stream0_IRQHandler c2ExState).chan 3).value_fresh = true := by
  decide

/-- The concrete state for the C2 witness: a two-channel scan with the
free-running channel 3 at position 0 and the buffered channel 5
(`reqsamples = 3`) at position 1. -/
def c2WitState : AdcState :=
  { stdState with
    chan := fun i =>
      if i = 3 then { ch_default with freerunning := true }
      else if i = 5 then { ch_default with reqsamples := 3 }
      else ch_default,
    ch_active := fun i => i == 3 || i == 5,
    running := true, nvicAdcEnabled := true, buf_enabled := true,
    scanList := [3, 5], sample_buf := [42, 43] }

/-- Witness for the amended C2 at a concrete multi-channel input: in a
two-channel scan, channel 5 at position 1 (`reqsamples = 3`) receives the
scratch slot 1 sample into its ring buffer with `value_fresh` cleared, while
the free-running channel 3 at position 0 gets only a latest-value update. -/
theorem c2_buffer_push_condition_witness :
    ((DMA2_Stream0_IRQHandler c2WitState).chan 5).buf = [43] ∧
    ((DMA2_Stream0_IRQHandler c2WitState).chan 5).value_fresh = false ∧
    ((DMA2_Stream0_IRQHandler c2WitState).chan 3).buf = [] ∧
    ((DMA2_Stream0_IRQHandler c2WitState).chan 3).value = 42 := by
  have h5 := (c2_buffer_push_condition c2WitState 5 [3] [] (by decide) (by decide)
    (by decide) (by decide)).1 (by decide)
  have h3 := (c2_buffer_push_condition c2WitState 3 [] [5] (by decide) (by decide)
    (by decide) (by decide)).2 (by decide)
  exact ⟨h5.1.trans (by decide), h5.2, h3.1.trans (by decide), h3.2.2.trans (by decide)⟩

/-! ### Claims C3 and C10: the clock divider arithmetic -/

theorem div_div_succ_lt (P M : Nat) (hM : 0 < M) : P / (P / M + 1) < M := by
  have h2 := Nat.div_add_mod P M
  have h3 := Nat.mod_lt P hM
  have h1 : P < M * (P / M + 1) := by
    rw [Nat.mul_succ]
    omega
  exact (Nat.div_lt_iff_lt_mul (Nat.succ_pos _)).mpr h1

theorem min_prescaler (P M s : Nat) (hs : 0 < s) (hle : s ≤ P / M) :
    M ≤ P / s := by
  rw [Nat.le_div_iff_mul_le hs]
  calc M * s ≤ M * (P / M) := Nat.mul_le_mul_left M hle
    _ = (P / M) * M := Nat.mul_comm _ _
    _ ≤ P := Nat.div_mul_le_self P M

theorem succ_div_le_self (P : Nat) (hP : 1 ≤ P) : P / 0x10000 + 1 ≤ P := by
  by_cases hq : P / 0x10000 = 0
  · omega
  · have h1 : P / 0x10000 * 0x10000 ≤ P := Nat.div_mul_le_self P 0x10000
    omega

theorem set_clock_pos_proj (b f : Nat) (st : AdcState) (hf : 0 < f) :
    (platform_adc_set_clock b f st).2.clocked = true ∧
    (platform_adc_set_clock b f st).2.timPrescalerReg
        = (b / f / 0x10000 + 1 - 1) % 0x10000 ∧
    (platform_adc_set_clock b f st).2.timPeriodReg
        = (b / f / (b / f / 0x10000 + 1) + (U32_MOD - 1)) % U32_MOD ∧
    (platform_adc_set_clock b f st).1
        = b / ((b / f / 0x10000 + 1 - 1) % 0x10000 + 1)
          / (b / f / (b / f / 0x10000 + 1)) := by
  simp only [platform_adc_set_clock]
  rw [if_pos hf]
  exact ⟨rfl, rfl, rfl, rfl⟩

/-- C3: for an achievable requested frequency (`0 < f ≤ base_clock`, with the
base clock a 32-bit value), `set_clock` computes `period = base_clock / f`,
programs the timer with `prescaler = period / 0x10000 + 1` (register value
`prescaler - 1`) and the divided period (register value `period' - 1`), the
divided period lands inside the 16-bit counter range, that prescaler is
minimal among those that bring the period into range whenever the raw period
exceeds the range, and the returned value is the achieved frequency
`base_clock / prescaler / period'` computed by integer division — not the
requested value when rounding changes it. -/
theorem c3_set_clock_achieved (st : AdcState) (b f : Nat) (hb : b < 2 ^ 32)
    (hf : 0 < f) (hfb : f ≤ b) :
    (platform_adc_set_clock b f st).2.clocked = true ∧
    (platform_adc_set_clock b f st).2.timPrescalerReg = b / f / 0x10000 ∧
    (platform_adc_set_clock b f st).2.timPeriodReg
        = b / f / (b / f / 0x10000 + 1) - 1 ∧
    b / f / (b / f / 0x10000 + 1) < 0x10000 ∧
    (0x10000 ≤ b / f →
      ∀ s, 0 < s → s < b / f / 0x10000 + 1 → ¬ (b / f / s < 0x10000)) ∧
    (platform_adc_set_clock b f st).1
        = b / (b / f / 0x10000 + 1) / (b / f / (b / f / 0x10000 + 1)) := by
  obtain ⟨p1, p2, p3, p4⟩ := set_clock_pos_proj b f st hf
  have hPb : b / f ≤ b := Nat.div_le_self b f
  have hq : b / f / 0x10000 < 0x10000 := by
    apply (Nat.div_lt_iff_lt_mul (by norm_num)).mpr
    calc b / f ≤ b := hPb
      _ < 2 ^ 32 := hb
      _ = 0x10000 * 0x10000 := by norm_num
  have hqm : (b / f / 0x10000 + 1 - 1) % 0x10000 = b / f / 0x10000 := by
    rw [Nat.add_sub_cancel, Nat.mod_eq_of_lt hq]
  have hP1 : 1 ≤ b / f := (Nat.one_le_div_iff hf).mpr hfb
  have hpre : b / f / 0x10000 + 1 ≤ b / f := succ_div_le_self (b / f) hP1
  have hposP : (0 : Nat) < b / f / 0x10000 + 1 := Nat.succ_pos _
  have hP'pos : 1 ≤ b / f / (b / f / 0x10000 + 1) :=
    (Nat.one_le_div_iff hposP).mpr hpre
  have hP'lt : b / f / (b / f / 0x10000 + 1) < 0x10000 :=
    div_div_succ_lt (b / f) 0x10000 (by norm_num)
  refine ⟨p1, ?_, ?_, hP'lt, ?_, ?_⟩
  · rw [p2, hqm]
  · rw [p3]
    have hU : U32_MOD = 4294967296 := by norm_num [U32_MOD]
    rw [hU]
    omega
  · intro _ s hs hlt
    have hge : 0x10000 ≤ b / f / s :=
      min_prescaler (b / f) 0x10000 s hs (by omega)
    omega
  · rw [p4, hqm]

/-- Witness for C3 at a concrete input: base clock 1 MHz, requested 70 kHz —
period 14, prescaler 1, and the achieved-frequency report is 71428 Hz, not
the requested 70000 Hz. -/
theorem c3_set_clock_achieved_witness :
    (platform_adc_set_clock 1000000 70000 stdState).2.clocked = true ∧
    (platform_adc_set_clock 1000000 70000 stdState).1 = 71428 := by
  have h := c3_set_clock_achieved stdState 1000000 70000 (by norm_num) (by norm_num)
    (by norm_num)
  exact ⟨h.1, h.2.2.2.2.2.trans (by decide)⟩

/-- Counterexample to C10 as stated: for `requested_frequency = 3 MHz` with a
1 MHz base clock (`frequency > base_clock`, so `period = 0`, which still fits
an unsigned 32-bit integer), the 32-bit computation `period - 1` underflows to
`2^32 - 1` and does not fit the 16-bit counter. -/
theorem c10_period_reg_counterexample :
    0xFFFF < (platform_adc_set_clock 1000000 3000000 stdState).2.timPeriodReg := by
  decide

/-- C10 (amended): for every requested frequency `f` with `1 ≤ f ≤ base_clock`
(so `period = base_clock / f ≥ 1`; for `f > base_clock` the period is 0 and
`period - 1` underflows), the prescaler `period / 0x10000 + 1` guarantees
`period / prescaler ≤ 0x10000`, and the timer period register value
`period / prescaler - 1` fits in the 16-bit hardware counter even though no
explicit clamp is performed. -/
theorem c10_prescaler_bound (st : AdcState) (b f : Nat) (hb : b < 2 ^ 32)
    (hf : 0 < f) (hfb : f ≤ b) :
    b / f / (b / f / 0x10000 + 1) ≤ 0x10000 ∧
    (platform_adc_set_clock b f st).2.timPeriodReg
        = b / f / (b / f / 0x10000 + 1) - 1 ∧
    (platform_adc_set_clock b f st).2.timPeriodReg ≤ 0xFFFF := by
  obtain ⟨p1, p2, p3, p4⟩ := set_clock_pos_proj b f st hf
  have hP1 : 1 ≤ b / f := (Nat.one_le_div_iff hf).mpr hfb
  have hpre : b / f / 0x10000 + 1 ≤ b / f := succ_div_le_self (b / f) hP1
  have hP'pos : 1 ≤ b / f / (b / f / 0x10000 + 1) :=
    (Nat.one_le_div_iff (Nat.succ_pos _)).mpr hpre
  have hP'lt : b / f / (b / f / 0x10000 + 1) < 0x10000 :=
    div_div_succ_lt (b / f) 0x10000 (by norm_num)
  have hreg : (platform_adc_set_clock b f st).2.timPeriodReg
      = b / f / (b / f / 0x10000 + 1) - 1 := by
    rw [p3]
    have hU : U32_MOD = 4294967296 := by norm_num [U32_MOD]
    rw [hU]
    omega
  refine ⟨by omega, hreg, ?_⟩
  rw [hreg]
  omega

/-- Witness for the amended C10 at a concrete input: 1 MHz base clock,
1 kHz request — period 1000, prescaler 1, register value 999. -/
theorem c10_prescaler_bound_witness :
    (platform_adc_set_clock 1000000 1000 stdState).2.timPeriodReg = 999 ∧
    (platform_adc_set_clock 1000000 1000 stdState).2.timPeriodReg ≤ 0xFFFF := by
  have h := c10_prescaler_bound stdState 1000000 1000 (by norm_num) (by norm_num)
    (by norm_num)
  exact ⟨h.2.1.trans (by decide), h.2.2⟩

/-! ### Claim C4 -/

theorem set_clock_zero_proj (b : Nat) (st : AdcState) :
    (platform_adc_set_clock b 0 st).2.clocked = false ∧
    (platform_adc_set_clock b 0 st).2.extTrigRising = false ∧
    (platform_adc_set_clock b 0 st).2.adcInitExtTrigRising = false := by
  simp only [platform_adc_set_clock]
  rw [if_neg (by omega)]
  exact ⟨rfl, rfl, rfl⟩

/-- C4: `set_clock(0)` selects software-triggered mode — it clears `clocked`
and disables the external trigger edge both in the applied CR2 state and in
the init struct — and while the device is running each subsequent scan is
explicitly kick-started in software: the completion handler issues a software
start whenever it finishes with the device still running in unclocked mode,
and the start routine issues the first software start when arming a
non-running unclocked device. -/
theorem c4_software_trigger_mode (st st2 st3 : AdcState) (b : Nat)
    (h2c : st2.clocked = false)
    (h2r : (DMA2_Stream0_IRQHandler st2).running = true)
    (h3r : st3.running = false) (h3c : st3.clocked = false) :
    (platform_adc_set_clock b 0 st).2.clocked = false ∧
    (platform_adc_set_clock b 0 st).2.extTrigRising = false ∧
    (platform_adc_set_clock b 0 st).2.adcInitExtTrigRising = false ∧
    (DMA2_Stream0_IRQHandler st2).swStart = true ∧
    (platform_adc_start_sequence st3).2.swStart = true := by
  obtain ⟨z1, z2, z3⟩ := set_clock_zero_proj b st
  refine ⟨z1, z2, z3, ?_, ?_⟩
  · rw [handler_eq st2] at h2r ⊢
    apply tail_swStart
    · exact (loop_frame st2.scanList { st2 with dmaPending := false } 0).2.1.trans h2c
    · exact h2r
  · simp only [platform_adc_start_sequence]
    rw [if_neg (by rw [h3r]; simp)]
    have hcl : (adc_update_dev_sequence st3).clocked = false :=
      (dev_seq_frame st3).2.2.2.2.1.trans h3c
    split
    case isTrue hcond =>
      have hcond2 : (adc_update_dev_sequence st3).clocked = true := hcond
      rw [hcl] at hcond2
      simp at hcond2
    case isFalse hcond => rfl

/-- Witness for C4 at a concrete input. -/
theorem c4_software_trigger_mode_witness :
    (platform_adc_set_clock 1000000 0 stdState).2.clocked = false ∧
    (DMA2_Stream0_IRQHandler { c2ExState with clocked := false }).swStart = true ∧
    (platform_adc_start_sequence stdState).2.swStart = true := by
  have h := c4_software_trigger_mode stdState { c2ExState with clocked := false }
    stdState 1000000 (by decide) (by decide) (by decide) (by decide)
  exact ⟨h.1, h.2.2.2.1, h.2.2.2.2⟩

/-! ### Claim C5 -/

/-- C5: `stop(channel_id)` clears the channel's `op_pending` and marks it
inactive in the active mask; if it was the last active channel, stop
additionally disables the hardware trigger edge, disables the completion
interrupt in the NVIC, and clears `running` (device transition RUNNING →
IDLE); if another channel is still active, the trigger, interrupt enable and
`running` are left untouched. -/
theorem c5_stop_effects (st : AdcState) (id : Nat) :
    ((platform_adc_stop id st).chan id).op_pending = false ∧
    (platform_adc_stop id st).ch_active id = false ∧
    ((∀ j, j < NUM_ADC → j ≠ id → st.ch_active j = false) →
      (platform_adc_stop id st).extTrigRising = false ∧
      (platform_adc_stop id st).nvicAdcEnabled = false ∧
      (platform_adc_stop id st).running = false) ∧
    ((∃ j, j < NUM_ADC ∧ j ≠ id ∧ st.ch_active j = true) →
      (platform_adc_stop id st).running = st.running ∧
      (platform_adc_stop id st).nvicAdcEnabled = st.nvicAdcEnabled ∧
      (platform_adc_stop id st).extTrigRising = st.extTrigRising) := by
  refine ⟨by rw [stop_chan_self], stop_active_self st id, ?_, ?_⟩
  · intro hall
    have hmask : noActiveChannels (INACTIVATE_CHANNEL
        (setChan st id { st.chan id with op_pending := false }) id) = true := by
      simp only [noActiveChannels, List.all_eq_true]
      intro i hi
      by_cases hii : i = id
      · simp [INACTIVATE_CHANNEL, hii]
      · simp [INACTIVATE_CHANNEL, setChan, hii, hall i (List.mem_range.mp hi) hii]
    simp only [platform_adc_stop]
    split
    case isTrue hT => exact ⟨rfl, rfl, rfl⟩
    case isFalse hF => exact absurd hmask hF
  · rintro ⟨j, hj, hne, hact⟩
    exact stop_running_of_other st id j hj hact hne

/-- The concrete state for the C5 witness: channel 2 is the last active
channel and the device is running. -/
def c5ExState : AdcState :=
  { stdState with
    ch_active := fun i => i == 2,
    running := true, nvicAdcEnabled := true, extTrigRising := true }

/-- Witness for C5 at a concrete input: stopping the last active channel
takes the device to IDLE with the trigger and interrupt disabled. -/
theorem c5_stop_effects_witness :
    (platform_adc_stop 2 c5ExState).ch_active 2 = false ∧
    (platform_adc_stop 2 c5ExState).running = false ∧
    (platform_adc_stop 2 c5ExState).nvicAdcEnabled = false ∧
    (platform_adc_stop 2 c5ExState).extTrigRising = false := by
  have h := c5_stop_effects c5ExState 2
  have h3 := h.2.2.1 (by decide)
  exact ⟨h.2.1, h3.2.2, h3.2.1, h3.1⟩

/-! ### Claim C6 -/

/-- Counterexample to C6 as stated: rebuilding with zero active channels
(empty scan list) does not leave the device fully disabled — the code has no
zero-length guard, so it programs a zero-length DMA transfer
(`DMA_BufferSize = 0`), a zero-conversion scan (`ADC_NbrOfConversion = 0`),
and re-enables both the sampling unit and the DMA stream. -/
theorem c6_zero_channels_counterexample :
    stdState.scanList = [] ∧
    (platform_adc_update_sequence stdState).adcEnabled = true ∧
    (platform_adc_update_sequence stdState).dmaStreamEnabled = true ∧
    (platform_adc_update_sequence stdState).dmaBufSize = 0 ∧
    (platform_adc_update_sequence stdState).adcNbrConv = 0 := by
  decide

/-- C6 (amended): rebuilding with zero active channels programs a zero-length
DMA transfer and a zero-conversion scan and re-enables the sampling unit and
the DMA stream; only the hardware trigger edge is in the device's control —
after the rebuild it is raised exactly when the init struct's trigger edge was
rising (clocked mode) or the device is clocked and running, so it stays
disabled only in software-trigger mode. -/
theorem c6_zero_channels_rebuild (st : AdcState) (h : st.scanList = []) :
    (platform_adc_update_sequence st).dmaBufSize = 0 ∧
    (platform_adc_update_sequence st).adcNbrConv = 0 ∧
    (platform_adc_update_sequence st).adcEnabled = true ∧
    (platform_adc_update_sequence st).dmaStreamEnabled = true ∧
    (platform_adc_update_sequence st).extTrigRising
      = (st.adcInitExtTrigRising || (st.clocked && st.running)) := by
  obtain ⟨v1, v2, v3, v4, v5, v6, v7, v8, v9⟩ := upd_seq_vals st
  refine ⟨v1.trans (by rw [h]; rfl), v7.trans (by rw [h]; rfl), v8, v6, v9⟩

/-- Witness for the amended C6 at a concrete input. -/
theorem c6_zero_channels_rebuild_witness :
    (platform_adc_update_sequence stdState).dmaBufSize = 0 ∧
    (platform_adc_update_sequence stdState).extTrigRising = false := by
  have h := c6_zero_channels_rebuild stdState (by decide)
  exact ⟨h.1, h.2.2.2.2.trans (by decide)⟩

/-! ### Claim C7 -/

/-- C7: every sequence rebuild reprograms the DMA stream with buffer length
equal to the scan-list length, memory target equal to the device's sample
scratch buffer, circular mode and peripheral-to-memory direction (as left in
the init struct by `adcs_init`), and the rebuild clears the pending
transfer-complete flag (via `DMA_DeInit`) before re-enabling the stream, so a
stale completion raised before the rebuild is not reprocessed after it. -/
theorem c7_dma_reconfiguration (st : AdcState)
    (hcirc : st.dmaInitCircular = true) (hdir : st.dmaInitPeriph2Mem = true) :
    (platform_adc_update_sequence st).dmaBufSize = st.scanList.length ∧
    (platform_adc_update_sequence st).dmaMemAddr = st.sampleBufAddr ∧
    (platform_adc_update_sequence st).dmaCircular = true ∧
    (platform_adc_update_sequence st).dmaPeriph2Mem = true ∧
    (platform_adc_update_sequence st).dmaPending = false ∧
    (platform_adc_update_sequence st).dmaStreamEnabled = true := by
  obtain ⟨v1, v2, v3, v4, v5, v6, v7, v8, v9⟩ := upd_seq_vals st
  exact ⟨v1, v2, v3.trans hcirc, v4.trans hdir, v5, v6⟩

/-- The concrete state for the C7 witness: circular peripheral-to-memory DMA
configured, two channels in the scan list, a stale pending completion flag. -/
def c7ExState : AdcState :=
  { stdState with
    dmaInitCircular := true, dmaInitPeriph2Mem := true,
    scanList := [1, 2], sampleBufAddr := 77, dmaPending := true }

/-- Witness for C7 at a concrete input. -/
theorem c7_dma_reconfiguration_witness :
    (platform_adc_update_sequence c7ExState).dmaBufSize = 2 ∧
    (platform_adc_update_sequence c7ExState).dmaMemAddr = 77 ∧
    (platform_adc_update_sequence c7ExState).dmaCircular = true ∧
    (platform_adc_update_sequence c7ExState).dmaPending = false := by
  have h := c7_dma_reconfiguration c7ExState (by decide) (by decide)
  exact ⟨h.1.trans (by decide), h.2.1.trans (by decide), h.2.2.1, h.2.2.2.2.1⟩

/-! ### Claim C8 -/

/-- C8: on the ring buffer, `push` returns false and leaves the buffer —
contents, write index and read index — unchanged whenever the buffer is full
(a full-buffer push never overwrites unread data), and `pop` returns `none`
rather than any byte value whenever the buffer is empty. -/
theorem c8_rbuff_full_empty (p : Rbuff) (c : Nat) :
    (rbuff_is_full p = true → rbuff_push p c = (false, p)) ∧
    (rbuff_is_empty p = true → rbuff_pop p = (none, p)) := by
  constructor
  · intro h
    simp [rbuff_push, h]
  · intro h
    simp [rbuff_pop, h]

/-- Witness for C8 at a concrete input: a size-1 buffer is simultaneously
empty and full (capacity `size - 1 = 0`), so both branches fire on it. -/
theorem c8_rbuff_full_empty_witness :
    rbuff_is_full ⟨[0], 0, 0, 1⟩ = true ∧
    rbuff_push ⟨[0], 0, 0, 1⟩ 7 = (false, ⟨[0], 0, 0, 1⟩) ∧
    rbuff_is_empty ⟨[0], 0, 0, 1⟩ = true ∧
    rbuff_pop ⟨[0], 0, 0, 1⟩ = (none, ⟨[0], 0, 0, 1⟩) :=
  ⟨by decide, (c8_rbuff_full_empty ⟨[0], 0, 0, 1⟩ 7).1 (by decide),
    by decide, (c8_rbuff_full_empty ⟨[0], 0, 0, 1⟩ 7).2 (by decide)⟩

/-! ### Claim C9 -/

/-- C9: when the device is already running, `platform_adc_start_sequence`
returns success (`PLATFORM_OK`) and the state completely unchanged — no
channel or device field, hardware trigger, DMA pending flag or interrupt
configuration is touched; the entire re-arm body runs only when the device
was not running. -/
theorem c9_start_sequence_idempotent (st : AdcState) (h : st.running = true) :
    platform_adc_start_sequence st = (PLATFORM_OK, st) := by
  unfold platform_adc_start_sequence
  rw [if_pos h]

/-- Witness for C9 at a concrete input. -/
theorem c9_start_sequence_idempotent_witness :
    platform_adc_start_sequence { stdState with running := true }
      = (PLATFORM_OK, { stdState with running := true }) :=
  c9_start_sequence_idempotent { stdState with running := true } rfl

end RuuviAdc
